import Mathlib

/-!
# oVirt machine provider: the VM provisioning and teardown client

A shallow embedding of `pkg/clients/ovirt/impl.go`.

* The remote platform is a value of type `Platform`: for every kind of request it
  gives the response as a function of the trace of requests issued so far (the
  request being answered is the last entry of that trace).  Nothing is assumed of
  these functions, so a platform may answer the same request differently each time.
* Every client function takes the trace on entry and returns its Go result together
  with the trace on exit.  A Go `error` result is an `Option Err` (`none` is `nil`),
  a `(value, error)` result is an `Except Err value`.
* Attributes that the source reads with the `Must...` accessors of the SDK are plain
  fields: responses are taken to carry them.
* Logging (`klog`) has no effect on results or requests and is left out.
* Time is not modelled: a poll is bounded by the number of ticks that fit its timeout.
-/

namespace Ovirt

deriving instance DecidableEq for Except

/-! ## Machine integers -/

/-- Values of the Go type `int32`. -/
structure GoInt32 where
  val : Int
  lo : -2147483648 ≤ val
  hi : val < 2147483648
deriving DecidableEq

/-- Conversion of an integer to the Go type `int64`, with two's complement wrap-around.
Arithmetic on `int64` is exact arithmetic followed by this conversion. -/
def int64 (x : Int) : Int :=
  (x + 9223372036854775808) % 18446744073709551616 - 9223372036854775808

/-! ## Errors -/

/-- Go error values as far as the client tells them apart. -/
inductive Err where
  /-- An error carrying only its text: returned by the platform, or made by
  `fmt.Errorf` and `errors.Errorf`. -/
  | msg (text : String)
  /-- The SDK error `ovirtsdk.XMLTagNotMatchError`. -/
  | xmlTagNotMatch (actualTag expectedTag : String)
  /-- The error `wait.ErrWaitTimeout` of the polling helper. -/
  | waitTimeout
  /-- The result of `errors.Wrap(cause, message)` and `errors.Wrapf`. -/
  | wrap (cause : Err) (message : String)
deriving DecidableEq

/-- The text of an error (`err.Error()`), used where the source formats an error into
the message of a new one. -/
def Err.text : Err → String
  | .msg t => t
  | .xmlTagNotMatch a e => "Tag not matched: expect <" ++ e ++ "> but got <" ++ a ++ ">"
  | .waitTimeout => "timed out waiting for the condition"
  | .wrap c m => m ++ ": " ++ c.text

/-- The test `errors.Is(err, target)`: `err` or an error in its chain of causes equals
`target`. -/
def errorsIs : Err → Err → Bool
  | .wrap cause m, target => decide (Err.wrap cause m = target) || errorsIs cause target
  | e, target => decide (e = target)

/-! ## The provider spec (`ovirtconfigv1.OvirtMachineProviderSpec`)

The type declarations live in package `v1beta1`, outside the files embedded here.
The fields the client reads are listed with the types of that package: `int32` for
the CPU counts, `MemoryMB` and `Hugepages`, and `int64` for `SizeGB` (the source
multiplies it by an `int64` without conversion).  A nil or empty slice is `[]`. -/

/-- The type `v1beta1.CPU`. -/
structure CPU where
  Sockets : GoInt32
  Cores : GoInt32
  Threads : GoInt32
deriving DecidableEq

/-- The type `v1beta1.Disk`; `SizeGB` is an `int64`. -/
structure Disk where
  SizeGB : Int
deriving DecidableEq

/-- The type `v1beta1.NetworkInterface`. -/
structure NetworkInterface where
  VNICProfileID : String
deriving DecidableEq

/-- The fields of the provider spec that the client reads. -/
structure OvirtMachineProviderSpec where
  ClusterId : String
  TemplateName : String
  VMType : String
  InstanceTypeId : String
  CPU : Option CPU
  MemoryMB : GoInt32
  OSDisk : Option Disk
  NetworkInterfaces : List NetworkInterface
  AffinityGroupsNames : List String
  AutoPinningPolicy : String
  Hugepages : GoInt32
deriving DecidableEq

/-! ## SDK objects -/

/-- The SDK constant `ovirtsdk.AUTOPINNINGPOLICY_DISABLED`. -/
def AUTOPINNINGPOLICY_DISABLED : String := "disabled"

/-- The SDK constant `ovirtsdk.AUTOPINNINGPOLICY_ADJUST`. -/
def AUTOPINNINGPOLICY_ADJUST : String := "adjust"

/-- The SDK constant `ovirtsdk.VMAFFINITY_MIGRATABLE`. -/
def VMAFFINITY_MIGRATABLE : String := "migratable"

/-- The SDK constant `ovirtsdk.VMSTATUS_DOWN`. -/
def VMSTATUS_DOWN : String := "down"

/-- The SDK constant `ovirtsdk.DISKSTATUS_OK`. -/
def DISKSTATUS_OK : String := "ok"

/-- A CPU topology as built by `NewCpuTopologyBuilder`; the fields are `int64`. -/
structure CpuTopology where
  cores : Int
  sockets : Int
  threads : Int
deriving DecidableEq

/-- A CPU as built by `NewCpuBuilder`. -/
structure Cpu where
  topology : Option CpuTopology
deriving DecidableEq

/-- An instance-type reference as built by `NewInstanceTypeBuilder`. -/
structure InstanceType where
  id : String
deriving DecidableEq

/-- The initialization payload as built by `NewInitializationBuilder`. -/
structure Initialization where
  customScript : String
  hostName : String
deriving DecidableEq

/-- A host of the platform. -/
structure Host where
  id : String
deriving DecidableEq

/-- A placement policy as built by `NewVmPlacementPolicyBuilder`. -/
structure VmPlacementPolicy where
  hosts : List Host
  affinity : String
deriving DecidableEq

/-- A custom property as built by `NewCustomPropertyBuilder`. -/
structure CustomProperty where
  name : String
  value : String
deriving DecidableEq

/-- The VM creation request collected by `NewVmBuilder`; an attribute that was not set
is `none` (or `[]`). -/
structure Vm where
  name : String
  clusterId : String
  templateName : String
  initialization : Initialization
  vmType : Option String
  instanceType : Option InstanceType
  cpu : Option Cpu
  memory : Option Int
  placementPolicy : Option VmPlacementPolicy
  customProperties : List CustomProperty
deriving DecidableEq

/-- A VM as the platform reports it.  The name is optional because `GetVMByName` tests
its presence. -/
structure VmInfo where
  id : String
  name : Option String
  status : String
deriving DecidableEq

/-- The accessor `MustName` on a reported VM. -/
def VmInfo.mustName (v : VmInfo) : String := v.name.getD ""

/-- The result type `Instance` of the client: a wrapper of the reported VM. -/
structure Instance where
  vm : VmInfo
deriving DecidableEq

/-- A cluster as the platform reports it. -/
structure ClusterInfo where
  name : String
deriving DecidableEq

/-- A disk as the platform reports it; the size is an `int64` number of bytes. -/
structure DiskInfo where
  provisionedSize : Int
deriving DecidableEq

/-- A disk attachment of a VM; `disk` is set by the client before an update. -/
structure DiskAttachment where
  id : String
  bootable : Bool
  disk : Option DiskInfo
deriving DecidableEq

/-- An existing network interface of a VM. -/
structure NicInfo where
  id : String
deriving DecidableEq

/-- A network interface as built by `NewNicBuilder`. -/
structure Nic where
  name : String
  vnicProfileId : String
deriving DecidableEq

/-- An affinity group of a cluster. -/
structure AffinityGroup where
  id : String
  name : String
deriving DecidableEq

/-! ## Requests and the platform -/

/-- The requests the client sends to the platform, with the arguments it passes.
`waitForVM` and `waitForDisk` are the polling calls of the SDK connection; their
timeouts (one minute, twenty minutes) are constants of the source. -/
inductive Call where
  | clusterGet (clusterId : String)
  | hostsList (search : String)
  | vmAdd (vm : Vm)
  | waitForVM (vmId : String) (status : String)
  | diskAttachmentsList (vmId : String)
  | diskGet (diskId : String)
  | diskAttachmentUpdate (vmId : String) (attachmentId : String) (attachment : DiskAttachment)
  | waitForDisk (diskId : String) (status : String)
  | nicsList (vmId : String)
  | nicRemove (vmId : String) (nicId : String)
  | nicAdd (vmId : String) (nic : Nic)
  | autoPin (vmId : String) (optimizeCpuSettings : Bool)
  | tagAdd (vmId : String) (tagName : String)
  | affinityGroupsList (clusterId : String)
  | affinityGroupVmAdd (clusterId : String) (groupId : String) (vm : VmInfo)
  | vmStop (vmId : String)
  | vmGet (vmId : String)
  | vmRemove (vmId : String)
  | vmsList (search : String)
deriving DecidableEq

/-- The platform behind the SDK connection.  Each field answers one kind of request;
its argument is the trace of all requests so far, ending with the request being
answered.  The three `...Build` fields give the error, if any, of the SDK `Build()`
calls whose error the source checks. -/
structure Platform where
  clusterGet : List Call → Except Err ClusterInfo
  hostsList : List Call → Except Err (List Host)
  vmAdd : List Call → Except Err VmInfo
  waitForVM : List Call → Option Err
  diskAttachmentsList : List Call → Except Err (List DiskAttachment)
  diskGet : List Call → Except Err DiskInfo
  diskAttachmentUpdate : List Call → Option Err
  waitForDisk : List Call → Option Err
  nicsList : List Call → Except Err (List NicInfo)
  nicRemove : List Call → Option Err
  nicAdd : List Call → Option Err
  autoPin : List Call → Option Err
  tagAdd : List Call → Option Err
  affinityGroupsList : List Call → Except Err (List AffinityGroup)
  affinityGroupVmAdd : List Call → Option Err
  vmStop : List Call → Option Err
  vmGet : List Call → Except Err (Option VmInfo)
  vmRemove : List Call → Option Err
  vmsList : List Call → Except Err (List VmInfo)
  placementPolicyBuild : List Host → Option Err
  customPropertyBuild : String → String → Option Err
  vmBuild : Vm → Option Err

/-! ## Assembling the creation request (`CreateVMByMachine`, lines 39 to 107) -/

/-- The builder after lines 39 to 71 of `CreateVMByMachine`: name, cluster, template and
initialization, the VM type when given, and the sizing branch. -/
def sizedVm (machineName ignition : String) (providerSpec : OvirtMachineProviderSpec) : Vm :=
  let vmBuilder : Vm :=
    { name := machineName
      clusterId := providerSpec.ClusterId
      templateName := providerSpec.TemplateName
      initialization := { customScript := ignition, hostName := machineName }
      vmType := none
      instanceType := none
      cpu := none
      memory := none
      placementPolicy := none
      customProperties := [] }
  let vmBuilder :=
    if providerSpec.VMType ≠ "" then { vmBuilder with vmType := some providerSpec.VMType }
    else vmBuilder
  if providerSpec.InstanceTypeId ≠ "" then
    { vmBuilder with instanceType := some { id := providerSpec.InstanceTypeId } }
  else
    let vmBuilder :=
      match providerSpec.CPU with
      | some cpu =>
        let topology : CpuTopology :=
          { cores := int64 cpu.Cores.val
            sockets := int64 cpu.Sockets.val
            threads := int64 cpu.Threads.val }
        { vmBuilder with cpu := some { topology := some topology } }
      | none => vmBuilder
    if providerSpec.MemoryMB.val > 0 then
      { vmBuilder with memory := some (int64 (int64 1048576 * int64 providerSpec.MemoryMB.val)) }
    else vmBuilder

/-- The flag `isAutoPinning` of `CreateVMByMachine` (lines 73 to 79). -/
def isAutoPinning (providerSpec : OvirtMachineProviderSpec) : Bool :=
  decide (providerSpec.AutoPinningPolicy ≠ "") &&
    decide (providerSpec.AutoPinningPolicy ≠ AUTOPINNINGPOLICY_DISABLED)

/-- The function `getHostsInCluster`. -/
def getHostsInCluster (P : Platform) (clusterID : String) (h : List Call) :
    Except Err (List Host) × List Call :=
  let h1 := h ++ [Call.clusterGet clusterID]
  match P.clusterGet h1 with
  | .error e => (.error (.msg ("failed to get the cluster: " ++ e.text)), h1)
  | .ok cluster =>
    let h2 := h1 ++ [Call.hostsList ("cluster=" ++ cluster.name)]
    match P.hostsList h2 with
    | .error e =>
      (.error (.msg ("failed to get the list of hosts in the cluster: " ++ e.text)), h2)
    | .ok hosts => (.ok hosts, h2)

/-- Lines 73 to 92 of `CreateVMByMachine`: with an auto-pinning policy other than
disabled, the hosts of the cluster are looked up and a placement policy is attached. -/
def placementPhase (P : Platform) (providerSpec : OvirtMachineProviderSpec) (vmBuilder : Vm)
    (h : List Call) : Except Err Vm × List Call :=
  if isAutoPinning providerSpec then
    match getHostsInCluster P providerSpec.ClusterId h with
    | (.error e, h1) => (.error e, h1)
    | (.ok hostsInCluster, h1) =>
      match P.placementPolicyBuild hostsInCluster with
      | some e =>
        (.error (.msg ("failed to build the placement policy of the vm: " ++ e.text)), h1)
      | none =>
        (.ok { vmBuilder with
            placementPolicy := some { hosts := hostsInCluster, affinity := VMAFFINITY_MIGRATABLE } },
          h1)
  else (.ok vmBuilder, h)

/-- Lines 93 to 102 of `CreateVMByMachine`: the hugepages custom property. -/
def hugepagesPhase (P : Platform) (providerSpec : OvirtMachineProviderSpec) (vmBuilder : Vm) :
    Except Err Vm :=
  if providerSpec.Hugepages.val > 0 then
    match P.customPropertyBuild "hugepages" (toString providerSpec.Hugepages.val) with
    | some e => .error e
    | none =>
      .ok { vmBuilder with
          customProperties := vmBuilder.customProperties ++
            [{ name := "hugepages", value := toString providerSpec.Hugepages.val }] }
  else .ok vmBuilder

/-- Lines 39 to 107 of `CreateVMByMachine`: the creation request, or the error that
stops the creation before the create call. -/
def assembleVm (P : Platform) (machineName ignition : String)
    (providerSpec : OvirtMachineProviderSpec) (h : List Call) : Except Err Vm × List Call :=
  match placementPhase P providerSpec (sizedVm machineName ignition providerSpec) h with
  | (.error e, h1) => (.error e, h1)
  | (.ok vmBuilder, h1) =>
    match hugepagesPhase P providerSpec vmBuilder with
    | .error e => (.error e, h1)
    | .ok vmBuilder =>
      match P.vmBuild vmBuilder with
      | some e => (.error (.wrap e "failed to construct VM struct"), h1)
      | none => (.ok vmBuilder, h1)

/-! ## Disk reconciliation (`handleDiskExtension`) -/

/-- The loop of lines 169 to 175 of `handleDiskExtension`: every attachment flagged
bootable is assigned to the variable in turn and the loop does not stop; `none` is the
nil pointer the variable starts with. -/
def bootableDiskAttachment (attachments : List DiskAttachment) : Option DiskAttachment :=
  attachments.foldl (fun found disk => if disk.bootable then some disk else found) none

/-- The value `newDiskSize` of `handleDiskExtension` (line 181): an `int64` product. -/
def newDiskSize (osDisk : Disk) : Int :=
  int64 (osDisk.SizeGB * int64 1073741824)

/-- The function `handleDiskExtension`.  `vmService` is the id of the VM the service
addresses; `osDisk` is the disk that `providerSpec.OSDisk` points to (the caller passes a
spec whose `OSDisk` is not nil). -/
def handleDiskExtension (P : Platform) (vmService : String) (createdVM : VmInfo)
    (osDisk : Disk) (h : List Call) : Option Err × List Call :=
  let h1 := h ++ [Call.diskAttachmentsList vmService]
  match P.diskAttachmentsList h1 with
  | .error e => (some e, h1)
  | .ok attachments =>
    match bootableDiskAttachment attachments with
    | none =>
      (some (.msg ("the VM " ++ createdVM.mustName ++ "(" ++ createdVM.id ++
        ") doesn\x27t have a bootable disk - was Blank template used by mistake?")), h1)
    | some attachment =>
      let h2 := h1 ++ [Call.diskGet attachment.id]
      match P.diskGet h2 with
      | .error e => (some e, h2)
      | .ok disk =>
        let size := disk.provisionedSize
        if newDiskSize osDisk > size then
          let updated : DiskAttachment :=
            { attachment with
              disk := some { disk with provisionedSize := newDiskSize osDisk } }
          let h3 := h2 ++ [Call.diskAttachmentUpdate vmService updated.id updated]
          match P.diskAttachmentUpdate h3 with
          | some e => (some (.msg ("failed to update the OS disk - " ++ e.text)), h3)
          | none =>
            let h4 := h3 ++ [Call.waitForDisk updated.id DISKSTATUS_OK]
            match P.waitForDisk h4 with
            | some e => (some e, h4)
            | none => (none, h4)
        else (none, h2)

/-! ## Network reconciliation (`handleNics`) -/

/-- The loop of lines 314 to 319 of `handleNics`: remove the existing interfaces. -/
def removeNics (P : Platform) (vmService : String) :
    List NicInfo → List Call → Option Err × List Call
  | [], h => (none, h)
  | n :: rest, h =>
    let h1 := h ++ [Call.nicRemove vmService n.id]
    match P.nicRemove h1 with
    | some e =>
      (some (.wrap e "failed clearing all interfaces before populating new ones"), h1)
    | none => removeNics P vmService rest h1

/-- The loop of lines 322 to 332 of `handleNics` from index `i` on: add one interface per
entry of the spec. -/
def addNics (P : Platform) (vmService : String) :
    Nat → List NetworkInterface → List Call → Option Err × List Call
  | _, [], h => (none, h)
  | i, nic :: rest, h =>
    let h1 := h ++ [Call.nicAdd vmService
      { name := "nic" ++ toString (i + 1), vnicProfileId := nic.VNICProfileID }]
    match P.nicAdd h1 with
    | some e => (some (.wrap e "failed to create network interface"), h1)
    | none => addNics P vmService (i + 1) rest h1

/-- The function `handleNics`. -/
def handleNics (P : Platform) (vmService : String) (spec : OvirtMachineProviderSpec)
    (h : List Call) : Option Err × List Call :=
  if spec.NetworkInterfaces.length = 0 then (none, h)
  else
    let h1 := h ++ [Call.nicsList vmService]
    match P.nicsList h1 with
    | .error e => (some (.wrap e "failed fetching VM network interfaces"), h1)
    | .ok nicList =>
      match removeNics P vmService nicList h1 with
      | (some e, h2) => (some e, h2)
      | (none, h2) => addNics P vmService 0 spec.NetworkInterfaces h2

/-! ## Affinity groups (`getAffinityGroups`, `handleAffinityGroups`) -/

/-- The map `agNamesMap` of `getAffinityGroups` as an association list: an assignment
puts the entry in front and a lookup takes the first entry of the key, so that a later
assignment to a key replaces an earlier one. -/
def agNamesMap (groups : List AffinityGroup) : List (String × AffinityGroup) :=
  groups.foldl (fun m af => (af.name, af) :: m) []

/-- Lookup in the map `agNamesMap`. -/
def mapGet (m : List (String × AffinityGroup)) (key : String) : Option AffinityGroup :=
  match m with
  | [] => none
  | (k, v) :: rest => if k = key then some v else mapGet rest key

/-- The loop of lines 391 to 396 of `getAffinityGroups`; `ag` is the slice built so far. -/
def resolveGroups (cID : String) (m : List (String × AffinityGroup)) :
    List String → List AffinityGroup → Except Err (List AffinityGroup)
  | [], ag => .ok ag
  | agName :: rest, ag =>
    match mapGet m agName with
    | none =>
      .error (.msg ("affinity group " ++ agName ++ " was not found on cluster " ++ cID))
    | some g => resolveGroups cID m rest (ag ++ [g])

/-- The function `getAffinityGroups`. -/
def getAffinityGroups (P : Platform) (cID : String) (agNames : List String)
    (h : List Call) : Except Err (List AffinityGroup) × List Call :=
  let h1 := h ++ [Call.affinityGroupsList cID]
  match P.affinityGroupsList h1 with
  | .error e => (.error e, h1)
  | .ok groups => (resolveGroups cID (agNamesMap groups) agNames [], h1)

/-- The error that `handleAffinityGroups` tolerates on an add (line 413). -/
def toleratedAddError : Err := .xmlTagNotMatch "action" "vm"

/-- The loop of lines 408 to 420 of `handleAffinityGroups`. -/
def addToGroups (P : Platform) (vm : VmInfo) (cID : String) :
    List AffinityGroup → List Call → Option Err × List Call
  | [], h => (none, h)
  | ag :: rest, h =>
    let h1 := h ++ [Call.affinityGroupVmAdd cID ag.id vm]
    match P.affinityGroupVmAdd h1 with
    | some e =>
      if !errorsIs e toleratedAddError then
        (some (.msg ("failed to add VM " ++ vm.mustName ++ " to AffinityGroup " ++ ag.name ++
          ", error: " ++ e.text)), h1)
      else addToGroups P vm cID rest h1
    | none => addToGroups P vm cID rest h1

/-- The function `handleAffinityGroups`. -/
def handleAffinityGroups (P : Platform) (vm : VmInfo) (cID : String) (agsName : List String)
    (h : List Call) : Option Err × List Call :=
  match getAffinityGroups P cID agsName h with
  | (.error e, h1) => (some e, h1)
  | (.ok ags, h1) => addToGroups P vm cID ags h1

/-! ## Auto pinning (`handleAutoPinning`) -/

/-- The function `handleAutoPinning`. -/
def handleAutoPinning (P : Platform) (id : String) (autoPinningPolicy : String)
    (h : List Call) : Option Err × List Call :=
  let optimizeCPUSettings := decide (autoPinningPolicy = AUTOPINNINGPOLICY_ADJUST)
  let h1 := h ++ [Call.autoPin id optimizeCPUSettings]
  match P.autoPin h1 with
  | some e =>
    (some (.msg ("failed to set the auto pinning policy on the VM!, " ++ e.text)), h1)
  | none => (none, h1)

/-! ## Creation (`CreateVMByMachine`) -/

/-- Lines 125 to 130 of `CreateVMByMachine`: disk reconciliation when the spec has an
`OSDisk`. -/
def diskStep (P : Platform) (vmID : String) (response : VmInfo)
    (providerSpec : OvirtMachineProviderSpec) (h : List Call) : Option Err × List Call :=
  match providerSpec.OSDisk with
  | some osDisk => handleDiskExtension P vmID response osDisk h
  | none => (none, h)

/-- Lines 137 to 142 of `CreateVMByMachine`: the auto-pinning request; its error is
logged and dropped. -/
def autoPinStep (P : Platform) (vmID : String) (providerSpec : OvirtMachineProviderSpec)
    (h : List Call) : List Call :=
  if isAutoPinning providerSpec then
    match handleAutoPinning P vmID providerSpec.AutoPinningPolicy h with
    | (some _, h1) => h1
    | (none, h1) => h1
  else h

/-- Lines 144 to 151 of `CreateVMByMachine`: the tag request; its error is logged and
dropped. -/
def tagStep (P : Platform) (vmID : String) (ovirtClusterID : String) (h : List Call) :
    List Call :=
  let h1 := h ++ [Call.tagAdd vmID ovirtClusterID]
  match P.tagAdd h1 with
  | some _ => h1
  | none => h1

/-- Lines 116 to 160 of `CreateVMByMachine`: the steps after the create call answered
with `response`; `vm` is the request that was sent. -/
def afterCreate (P : Platform) (ovirtClusterID : String)
    (providerSpec : OvirtMachineProviderSpec) (vm : Vm) (response : VmInfo) (h : List Call) :
    Except Err Instance × List Call :=
  let vmID := response.id
  let h1 := h ++ [Call.waitForVM vmID VMSTATUS_DOWN]
  match P.waitForVM h1 with
  | some e => (.error (.wrap e "timed out waiting for the VM creation to finish"), h1)
  | none =>
    match diskStep P vmID response providerSpec h1 with
    | (some e, h2) => (.error e, h2)
    | (none, h2) =>
      match handleNics P vmID providerSpec h2 with
      | (some e, h3) =>
        (.error (.wrap e ("failed handling nics creation for VM " ++ vm.name)), h3)
      | (none, h3) =>
        let h4 := autoPinStep P vmID providerSpec h3
        let h5 := tagStep P response.id ovirtClusterID h4
        match handleAffinityGroups P response providerSpec.ClusterId
            providerSpec.AffinityGroupsNames h5 with
        | (some e, h6) => (.error e, h6)
        | (none, h6) => (.ok { vm := response }, h6)

/-- The function `CreateVMByMachine`; a nil `providerSpec` is `none`, the ignition bytes
are the string the source converts them to. -/
def CreateVMByMachine (P : Platform) (machineName ovirtClusterID ignition : String)
    (providerSpec : Option OvirtMachineProviderSpec) (h : List Call) :
    Except Err Instance × List Call :=
  match providerSpec with
  | none => (.error (.msg "create Options need be specified to create instace"), h)
  | some providerSpec =>
    match assembleVm P machineName ignition providerSpec h with
    | (.error e, h1) => (.error e, h1)
    | (.ok vm, h1) =>
      let h2 := h1 ++ [Call.vmAdd vm]
      match P.vmAdd h2 with
      | .error e => (.error e, h2)
      | .ok response => afterCreate P ovirtClusterID providerSpec vm response h2

/-! ## Teardown (`DeleteVM`) -/

/-- The helper `util.PollImmediate(interval, timeout, condition)` of the machine API
library: the condition is run at once and then at every tick of the interval until it
reports done or an error, or the timeout passes.  Time is not modelled: `ticks` is the
number of ticks that fit before the timeout, so the condition runs at most `ticks + 1`
times.  An error of the condition is returned as it is, a timeout is
`wait.ErrWaitTimeout`. -/
def pollImmediate (condition : List Call → (Bool × Option Err) × List Call) :
    Nat → List Call → Option Err × List Call
  | 0, h =>
    match condition h with
    | ((_, some e), h1) => (some e, h1)
    | ((true, none), h1) => (none, h1)
    | ((false, none), h1) => (some .waitTimeout, h1)
  | ticks + 1, h =>
    match condition h with
    | ((_, some e), h1) => (some e, h1)
    | ((true, none), h1) => (none, h1)
    | ((false, none), h1) => pollImmediate condition ticks h1

/-- The condition of the first poll of `DeleteVM` (lines 226 to 237): the VM reads as
down.  A failed read is "not yet"; a response without a VM returns the nil error of the
read. -/
def downCondition (P : Platform) (id : String) (h : List Call) :
    (Bool × Option Err) × List Call :=
  let h1 := h ++ [Call.vmGet id]
  match P.vmGet h1 with
  | .error _ => ((false, none), h1)
  | .ok none => ((false, none), h1)
  | .ok (some vm) => ((decide (vm.status = VMSTATUS_DOWN), none), h1)

/-- The condition of the last poll of `DeleteVM` (lines 241 to 244): the read of the VM
fails. -/
def goneCondition (P : Platform) (id : String) (h : List Call) :
    (Bool × Option Err) × List Call :=
  let h1 := h ++ [Call.vmGet id]
  match P.vmGet h1 with
  | .error _ => ((true, none), h1)
  | .ok _ => ((false, none), h1)

/-- The trace after the wait-for-down poll and the remove request of `DeleteVM` (lines
226 to 238), entered after a successful stop.  The error of the poll is overwritten by
the result of the remove request. -/
def stopToRemove (P : Platform) (ticksDown : Nat) (id : String) (h : List Call) : List Call :=
  (pollImmediate (downCondition P id) ticksDown h).2 ++ [Call.vmRemove id]

/-- The function `DeleteVM`; `ticksDown` and `ticksGone` are the numbers of ticks that fit
into the timeouts of its two polls.  The error of the remove request (line 238) is
overwritten by the result of the last poll (line 241). -/
def DeleteVM (P : Platform) (ticksDown ticksGone : Nat) (id : String) (h : List Call) :
    Option Err × List Call :=
  let h1 := h ++ [Call.vmStop id]
  match P.vmStop h1 with
  | some e => (some e, h1)
  | none =>
    let h2 := stopToRemove P ticksDown id h1
    match P.vmRemove h2 with
    | some _ => pollImmediate (goneCondition P id) ticksGone h2
    | none => pollImmediate (goneCondition P id) ticksGone h2

/-! ## Lookup (`GetVMByName`) -/

/-- The loop of lines 285 to 291 of `GetVMByName`. -/
def findByName (mName : String) : List VmInfo → Option Instance
  | [] => none
  | vm :: rest =>
    match vm.name with
    | some name => if name = mName then some { vm := vm } else findByName mName rest
    | none => findByName mName rest

/-- The function `GetVMByName`; a nil instance is `none`. -/
def GetVMByName (P : Platform) (mName : String) (h : List Call) :
    Except Err (Option Instance) × List Call :=
  let h1 := h ++ [Call.vmsList ("name=" ++ mName)]
  match P.vmsList h1 with
  | .error e => (.error e, h1)
  | .ok vms => (.ok (findByName mName vms), h1)

/-! ## Vocabulary of the statements -/

/-- Whether a request is a create call. -/
def Call.isVmAdd : Call → Bool
  | .vmAdd _ => true
  | _ => false

/-- The create calls of a trace, in order. -/
def createCalls (t : List Call) : List Call := t.filter Call.isVmAdd

/-- The update request of `handleDiskExtension` (lines 196 to 204): the attachment with
the disk that was read, its provisioned size set to `size`. -/
def resizeCall (vmService : String) (attachment : DiskAttachment) (size : Int) : Call :=
  Call.diskAttachmentUpdate vmService attachment.id
    { attachment with disk := some { provisionedSize := size } }

/-- The remove requests for a list of existing interfaces, in list order. -/
def removeCalls (vmService : String) (nics : List NicInfo) : List Call :=
  nics.map (fun n => Call.nicRemove vmService n.id)

/-- The add requests for the desired interfaces, in spec order; the entry at position `i`
(counted from `start`) is named `nic<i+1>` and bound to its VNIC profile id. -/
def addCalls (vmService : String) (start : Nat) (nics : List NetworkInterface) : List Call :=
  (nics.enumFrom start).map (fun p =>
    Call.nicAdd vmService
      { name := "nic" ++ toString (p.1 + 1), vnicProfileId := p.2.VNICProfileID })

/-! ## Sample data -/

/-- A platform on which every request succeeds: one host, a VM with one bootable disk of
10 GiB and two network interfaces, one affinity group named `compute`. -/
def okPlatform : Platform where
  clusterGet := fun _ => .ok { name := "Default" }
  hostsList := fun _ => .ok [{ id := "host-1" }]
  vmAdd := fun _ => .ok { id := "vm-1", name := some "worker-0", status := "down" }
  waitForVM := fun _ => none
  diskAttachmentsList := fun _ => .ok [{ id := "disk-a", bootable := true, disk := none }]
  diskGet := fun _ => .ok { provisionedSize := 10737418240 }
  diskAttachmentUpdate := fun _ => none
  waitForDisk := fun _ => none
  nicsList := fun _ => .ok [{ id := "nic-x" }, { id := "nic-y" }]
  nicRemove := fun _ => none
  nicAdd := fun _ => none
  autoPin := fun _ => none
  tagAdd := fun _ => none
  affinityGroupsList := fun _ => .ok [{ id := "ag-1", name := "compute" }]
  affinityGroupVmAdd := fun _ => none
  vmStop := fun _ => none
  vmGet := fun _ => .ok (some { id := "vm-1", name := some "worker-0", status := "down" })
  vmRemove := fun _ => none
  vmsList := fun _ => .ok []
  placementPolicyBuild := fun _ => none
  customPropertyBuild := fun _ _ => none
  vmBuild := fun _ => none

/-- The spec `BasicValidSpec` of the unit tests: 4 cores, 1 socket, 1 thread, 16348 MB,
a boot disk of 31 GB, no instance type. -/
def basicValidSpec : OvirtMachineProviderSpec where
  ClusterId := "46991e3f-8752-4ab6-9f2d-c37a98358d52"
  TemplateName := ""
  VMType := "server"
  InstanceTypeId := ""
  CPU := some
    { Sockets := ⟨1, by decide, by decide⟩
      Cores := ⟨4, by decide, by decide⟩
      Threads := ⟨1, by decide, by decide⟩ }
  MemoryMB := ⟨16348, by decide, by decide⟩
  OSDisk := some { SizeGB := 31 }
  NetworkInterfaces := []
  AffinityGroupsNames := []
  AutoPinningPolicy := ""
  Hugepages := ⟨0, by decide, by decide⟩

/-- The spec of the unit tests with the instance type `Metal` set next to CPU and
memory. -/
def metalSpec : OvirtMachineProviderSpec :=
  { basicValidSpec with InstanceTypeId := "Metal" }

/-- The request that `CreateVMByMachine` assembles for `metalSpec`. -/
def metalRequest : Vm where
  name := "worker-0"
  clusterId := "46991e3f-8752-4ab6-9f2d-c37a98358d52"
  templateName := ""
  initialization := { customScript := "ignition", hostName := "worker-0" }
  vmType := some "server"
  instanceType := some { id := "Metal" }
  cpu := none
  memory := none
  placementPolicy := none
  customProperties := []

/-- The request that `CreateVMByMachine` assembles for `basicValidSpec`. -/
def basicRequest : Vm where
  name := "worker-0"
  clusterId := "46991e3f-8752-4ab6-9f2d-c37a98358d52"
  templateName := ""
  initialization := { customScript := "ignition", hostName := "worker-0" }
  vmType := some "server"
  instanceType := none
  cpu := some { topology := some { cores := 4, sockets := 1, threads := 1 } }
  memory := some 17142120448
  placementPolicy := none
  customProperties := []

/-- The VM that `okPlatform` reports. -/
def sampleVm : VmInfo := { id := "vm-1", name := some "worker-0", status := "down" }

/-- The platform `okPlatform` with a disk-attachment update that is rejected. -/
def updateFailsPlatform : Platform :=
  { okPlatform with diskAttachmentUpdate := fun _ => some (.msg "update rejected") }

/-- The platform `okPlatform` with a VM that has two attachments flagged bootable. -/
def twoBootablePlatform : Platform :=
  { okPlatform with
    diskAttachmentsList := fun _ =>
      .ok [{ id := "disk-a", bootable := true, disk := none },
           { id := "disk-b", bootable := true, disk := none }] }

/-- A spec with two desired interfaces. -/
def twoNicSpec : OvirtMachineProviderSpec :=
  { basicValidSpec with
    NetworkInterfaces := [{ VNICProfileID := "profile-a" }, { VNICProfileID := "profile-b" }] }

/-- A spec that asks for the affinity groups `compute`, which `okPlatform` defines, and
`missing`, which it does not. -/
def missingGroupSpec : OvirtMachineProviderSpec :=
  { basicValidSpec with AffinityGroupsNames := ["compute", "missing"] }

/-- The platform `okPlatform` with an auto-pinning request and a tag request that always
fail. -/
def pinTagFailPlatform : Platform :=
  { okPlatform with
    autoPin := fun _ => some (.msg "pinning rejected")
    tagAdd := fun _ => some (.msg "tag rejected") }

/-- A spec with an auto-pinning policy, one desired interface and the affinity group
`compute`. -/
def pinnedSpec : OvirtMachineProviderSpec :=
  { basicValidSpec with
    NetworkInterfaces := [{ VNICProfileID := "profile-a" }]
    AffinityGroupsNames := ["compute"]
    AutoPinningPolicy := "resize_and_pin" }

/-- The requests of a creation run on `okPlatform` for a spec sized like `basicValidSpec`
without auto pinning and without interfaces, up to the end of disk reconciliation: the
create call, the stability wait, and the extension of the 10 GiB boot disk to 31 GB. -/
def reconciledTrace : List Call :=
  [Call.vmAdd basicRequest, Call.waitForVM "vm-1" VMSTATUS_DOWN,
    Call.diskAttachmentsList "vm-1", Call.diskGet "disk-a",
    resizeCall "vm-1" { id := "disk-a", bootable := true, disk := none } 33285996544,
    Call.waitForDisk "disk-a" DISKSTATUS_OK]

/-- The error of `getAffinityGroups` for the name `missing` on the cluster of
`basicValidSpec`. -/
def missingGroupError : Err :=
  .msg "affinity group missing was not found on cluster 46991e3f-8752-4ab6-9f2d-c37a98358d52"

/-- A platform on which the VM never reads as down, the remove request reports an error,
and every read after the remove request fails. -/
def removedPlatform : Platform :=
  { okPlatform with
    vmGet := fun t =>
      if Call.vmRemove "vm-1" ∈ t then .error (.msg "VM not found")
      else .ok (some { id := "vm-1", name := some "worker-0", status := "up" })
    vmRemove := fun _ => some (.msg "remove reported an error") }

/-- A platform on which the VM no longer exists: the stop request and every read of the VM
fail. -/
def gonePlatform : Platform :=
  { okPlatform with
    vmStop := fun _ => some (.msg "VM not found")
    vmGet := fun _ => .error (.msg "VM not found") }

/-- A platform on which the stop request is accepted and every read of the VM fails. -/
def unreadablePlatform : Platform :=
  { okPlatform with vmGet := fun _ => .error (.msg "VM not found") }

/-! ## Vocabulary of the statements on the order of requests and on lookup -/

/-- Whether a request belongs to disk reconciliation. -/
def Call.isDiskCall : Call → Bool
  | .diskAttachmentsList _ => true
  | .diskGet _ => true
  | .diskAttachmentUpdate _ _ _ => true
  | .waitForDisk _ _ => true
  | _ => false

/-- The add-membership requests for a list of affinity groups, in list order. -/
def groupAddCalls (cID : String) (vm : VmInfo) (ags : List AffinityGroup) : List Call :=
  ags.map (fun ag => Call.affinityGroupVmAdd cID ag.id vm)

/-- The request that `CreateVMByMachine` assembles for `pinnedSpec` on `okPlatform`:
`basicRequest` with the placement policy over the one host of the cluster. -/
def pinnedRequest : Vm :=
  { basicRequest with
    placementPolicy := some { hosts := [{ id := "host-1" }], affinity := VMAFFINITY_MIGRATABLE } }

/-- The requests of the creation run for `pinnedSpec` on `okPlatform`, in the order in
which they are issued. -/
def pinnedTrace : List Call :=
  [Call.clusterGet "46991e3f-8752-4ab6-9f2d-c37a98358d52", Call.hostsList "cluster=Default",
    Call.vmAdd pinnedRequest, Call.waitForVM "vm-1" VMSTATUS_DOWN,
    Call.diskAttachmentsList "vm-1", Call.diskGet "disk-a",
    resizeCall "vm-1" { id := "disk-a", bootable := true, disk := none } 33285996544,
    Call.waitForDisk "disk-a" DISKSTATUS_OK,
    Call.nicsList "vm-1", Call.nicRemove "vm-1" "nic-x", Call.nicRemove "vm-1" "nic-y",
    Call.nicAdd "vm-1" { name := "nic1", vnicProfileId := "profile-a" },
    Call.autoPin "vm-1" false,
    Call.tagAdd "vm-1" "cluster-tag",
    Call.affinityGroupsList "46991e3f-8752-4ab6-9f2d-c37a98358d52",
    Call.affinityGroupVmAdd "46991e3f-8752-4ab6-9f2d-c37a98358d52" "ag-1" sampleVm]

/-- The VMs that `searchPlatform` reports for a search: one without a name, one whose name
only starts with `worker-0`, and two named `worker-0`. -/
def searchResponse : List VmInfo :=
  [{ id := "vm-a", name := none, status := "up" },
    { id := "vm-b", name := some "worker-01", status := "up" },
    { id := "vm-c", name := some "worker-0", status := "up" },
    { id := "vm-d", name := some "worker-0", status := "down" }]

/-- The platform `okPlatform` with a search that answers `searchResponse`. -/
def searchPlatform : Platform :=
  { okPlatform with vmsList := fun _ => .ok searchResponse }

/-! # Theorems -/

/-! ## Machine integers and the sizing branch -/

theorem int64_of_range (x : Int) (lo : -9223372036854775808 ≤ x) (hi : x < 9223372036854775808) :
    int64 x = x := by
  unfold int64
  omega

theorem int64_of_int32 (x : GoInt32) : int64 x.val = x.val :=
  int64_of_range x.val (by have := x.lo; omega) (by have := x.hi; omega)

theorem int64_memory (m : GoInt32) : int64 (int64 1048576 * m.val) = m.val * 1048576 := by
  have h1 : int64 1048576 = 1048576 := by decide
  rw [h1]
  have := m.lo
  have := m.hi
  rw [int64_of_range] <;> omega

/-- The sizing branch with an instance type: only the reference is set. -/
theorem sizedVm_instanceType (machineName ignition : String) (spec : OvirtMachineProviderSpec)
    (hId : spec.InstanceTypeId ≠ "") :
    (sizedVm machineName ignition spec).instanceType = some { id := spec.InstanceTypeId } ∧
      (sizedVm machineName ignition spec).cpu = none ∧
      (sizedVm machineName ignition spec).memory = none := by
  unfold sizedVm
  simp only [hId, ne_eq, not_false_eq_true, if_true]
  split <;> simp

theorem sizedVm_explicit (machineName ignition : String) (spec : OvirtMachineProviderSpec)
    (cpu : CPU) (hId : spec.InstanceTypeId = "") (hCpu : spec.CPU = some cpu)
    (hMem : spec.MemoryMB.val > 0) :
    (sizedVm machineName ignition spec).instanceType = none ∧
      (sizedVm machineName ignition spec).cpu =
        some ⟨some ⟨cpu.Cores.val, cpu.Sockets.val, cpu.Threads.val⟩⟩ ∧
      (sizedVm machineName ignition spec).memory = some (spec.MemoryMB.val * 1048576) := by
  unfold sizedVm
  simp only [hId, hCpu, hMem, ne_eq, not_true_eq_false, if_false, if_true, int64_of_int32,
    int64_memory]
  split <;> simp

/-! ## The create request of a creation run -/

theorem createCalls_append (a b : List Call) : createCalls (a ++ b) = createCalls a ++ createCalls b := by
  simp [createCalls]

theorem createCalls_snoc_other (a : List Call) (c : Call) (hc : c.isVmAdd = false) :
    createCalls (a ++ [c]) = createCalls a := by
  simp [createCalls, List.filter_cons, hc]

theorem getHostsInCluster_createCalls (P : Platform) (c : String) (h : List Call) :
    createCalls (getHostsInCluster P c h).2 = createCalls h := by
  simp only [getHostsInCluster]
  split
  · simp [createCalls, List.filter_cons, Call.isVmAdd]
  · split <;> simp [createCalls, List.filter_cons, Call.isVmAdd]

theorem placementPhase_createCalls (P : Platform) (spec : OvirtMachineProviderSpec) (b : Vm)
    (h : List Call) : createCalls (placementPhase P spec b h).2 = createCalls h := by
  have hh := getHostsInCluster_createCalls P spec.ClusterId h
  unfold placementPhase
  split
  · split
    · next e h1 heq => rw [heq] at hh; simpa using hh
    · next hosts h1 heq =>
      rw [heq] at hh
      split <;> simpa using hh
  · rfl

theorem placementPhase_sizing (P : Platform) (spec : OvirtMachineProviderSpec) (b b2 : Vm)
    (h h1 : List Call) (hok : placementPhase P spec b h = (.ok b2, h1)) :
    b2.instanceType = b.instanceType ∧ b2.cpu = b.cpu ∧ b2.memory = b.memory := by
  unfold placementPhase at hok
  split at hok
  · split at hok
    · simp at hok
    · split at hok
      · simp at hok
      · simp only [Prod.mk.injEq, Except.ok.injEq] at hok
        rw [← hok.1]
        simp
  · simp only [Prod.mk.injEq, Except.ok.injEq] at hok
    rw [← hok.1]
    simp

theorem hugepagesPhase_sizing (P : Platform) (spec : OvirtMachineProviderSpec) (b b2 : Vm)
    (hok : hugepagesPhase P spec b = .ok b2) :
    b2.instanceType = b.instanceType ∧ b2.cpu = b.cpu ∧ b2.memory = b.memory := by
  unfold hugepagesPhase at hok
  split at hok
  · split at hok
    · simp at hok
    · simp only [Except.ok.injEq] at hok
      rw [← hok]
      simp
  · simp only [Except.ok.injEq] at hok
    rw [← hok]
    simp

theorem assembleVm_createCalls (P : Platform) (machineName ignition : String)
    (spec : OvirtMachineProviderSpec) (h : List Call) :
    createCalls (assembleVm P machineName ignition spec h).2 = createCalls h := by
  have hh := placementPhase_createCalls P spec (sizedVm machineName ignition spec) h
  unfold assembleVm
  split
  · next e h1 heq => rw [heq] at hh; simpa using hh
  · next b h1 heq =>
    rw [heq] at hh
    split
    · simpa using hh
    · split <;> simpa using hh

theorem assembleVm_sizing (P : Platform) (machineName ignition : String)
    (spec : OvirtMachineProviderSpec) (h h1 : List Call) (vm : Vm)
    (hok : assembleVm P machineName ignition spec h = (.ok vm, h1)) :
    vm.instanceType = (sizedVm machineName ignition spec).instanceType ∧
      vm.cpu = (sizedVm machineName ignition spec).cpu ∧
      vm.memory = (sizedVm machineName ignition spec).memory := by
  unfold assembleVm at hok
  split at hok
  · simp at hok
  · next b h2 heq =>
    have h1s := placementPhase_sizing P spec _ b h h2 heq
    split at hok
    · simp at hok
    · next b3 heq3 =>
      have h2s := hugepagesPhase_sizing P spec b b3 heq3
      split at hok
      · simp at hok
      · simp only [Prod.mk.injEq, Except.ok.injEq] at hok
        rw [← hok.1]
        exact ⟨h2s.1.trans h1s.1, h2s.2.1.trans h1s.2.1, h2s.2.2.trans h1s.2.2⟩

theorem handleDiskExtension_createCalls (P : Platform) (vmService : String) (createdVM : VmInfo)
    (osDisk : Disk) (h : List Call) :
    createCalls (handleDiskExtension P vmService createdVM osDisk h).2 = createCalls h := by
  simp only [handleDiskExtension]
  repeat (first | split | simp [createCalls, List.filter_cons, Call.isVmAdd])

theorem removeNics_createCalls (P : Platform) (vmService : String) (nics : List NicInfo)
    (h : List Call) : createCalls (removeNics P vmService nics h).2 = createCalls h := by
  induction nics generalizing h with
  | nil => rfl
  | cons n rest ih =>
    simp only [removeNics]
    split
    · simp [createCalls, List.filter_cons, Call.isVmAdd]
    · rw [ih]
      simp [createCalls, List.filter_cons, Call.isVmAdd]

theorem addNics_createCalls (P : Platform) (vmService : String) (i : Nat)
    (nics : List NetworkInterface) (h : List Call) :
    createCalls (addNics P vmService i nics h).2 = createCalls h := by
  induction nics generalizing h i with
  | nil => rfl
  | cons n rest ih =>
    simp only [addNics]
    split
    · simp [createCalls, List.filter_cons, Call.isVmAdd]
    · rw [ih]
      simp [createCalls, List.filter_cons, Call.isVmAdd]

theorem handleNics_createCalls (P : Platform) (vmService : String)
    (spec : OvirtMachineProviderSpec) (h : List Call) :
    createCalls (handleNics P vmService spec h).2 = createCalls h := by
  simp only [handleNics]
  split
  · rfl
  · split
    · simp [createCalls, List.filter_cons, Call.isVmAdd]
    · next nicList _ =>
      have hr := removeNics_createCalls P vmService nicList (h ++ [Call.nicsList vmService])
      split
      · next e h2 heq =>
        rw [heq] at hr
        simpa [createCalls, List.filter_cons, Call.isVmAdd] using hr
      · next h2 heq =>
        rw [heq] at hr
        rw [addNics_createCalls]
        simpa [createCalls, List.filter_cons, Call.isVmAdd] using hr

theorem addToGroups_createCalls (P : Platform) (vm : VmInfo) (cID : String)
    (ags : List AffinityGroup) (h : List Call) :
    createCalls (addToGroups P vm cID ags h).2 = createCalls h := by
  induction ags generalizing h with
  | nil => rfl
  | cons ag rest ih =>
    simp only [addToGroups]
    split
    · split
      · simp [createCalls, List.filter_cons, Call.isVmAdd]
      · rw [ih]
        simp [createCalls, List.filter_cons, Call.isVmAdd]
    · rw [ih]
      simp [createCalls, List.filter_cons, Call.isVmAdd]

theorem handleAffinityGroups_createCalls (P : Platform) (vm : VmInfo) (cID : String)
    (agsName : List String) (h : List Call) :
    createCalls (handleAffinityGroups P vm cID agsName h).2 = createCalls h := by
  simp only [handleAffinityGroups, getAffinityGroups]
  split
  · next e h1 heq =>
    split at heq
    · simp only [Prod.mk.injEq] at heq
      rw [← heq.2]
      simp [createCalls, List.filter_cons, Call.isVmAdd]
    · simp only [Prod.mk.injEq] at heq
      rw [← heq.2]
      simp [createCalls, List.filter_cons, Call.isVmAdd]
  · next ags h1 heq =>
    rw [addToGroups_createCalls]
    split at heq
    · simp only [Prod.mk.injEq] at heq
      rw [← heq.2]
      simp [createCalls, List.filter_cons, Call.isVmAdd]
    · simp only [Prod.mk.injEq] at heq
      rw [← heq.2]
      simp [createCalls, List.filter_cons, Call.isVmAdd]

theorem handleAutoPinning_trace (P : Platform) (id policy : String) (h : List Call) :
    (handleAutoPinning P id policy h).2 =
      h ++ [Call.autoPin id (decide (policy = AUTOPINNINGPOLICY_ADJUST))] := by
  simp only [handleAutoPinning]
  split <;> rfl

theorem autoPinStep_trace (P : Platform) (vmID : String) (spec : OvirtMachineProviderSpec)
    (h : List Call) :
    autoPinStep P vmID spec h =
      if isAutoPinning spec then
        h ++ [Call.autoPin vmID (decide (spec.AutoPinningPolicy = AUTOPINNINGPOLICY_ADJUST))]
      else h := by
  have ht := handleAutoPinning_trace P vmID spec.AutoPinningPolicy h
  simp only [autoPinStep]
  split
  · split
    · next e h1 heq => rw [heq] at ht; exact ht
    · next h1 heq => rw [heq] at ht; exact ht
  · rfl

theorem tagStep_trace (P : Platform) (vmID tag : String) (h : List Call) :
    tagStep P vmID tag h = h ++ [Call.tagAdd vmID tag] := by
  simp only [tagStep]
  split <;> rfl

theorem autoPinStep_createCalls (P : Platform) (vmID : String) (spec : OvirtMachineProviderSpec)
    (h : List Call) : createCalls (autoPinStep P vmID spec h) = createCalls h := by
  rw [autoPinStep_trace]
  split <;> simp [createCalls, List.filter_cons, Call.isVmAdd]

theorem tagStep_createCalls (P : Platform) (vmID tag : String) (h : List Call) :
    createCalls (tagStep P vmID tag h) = createCalls h := by
  rw [tagStep_trace]
  simp [createCalls, List.filter_cons, Call.isVmAdd]

theorem diskStep_createCalls (P : Platform) (vmID : String) (response : VmInfo)
    (spec : OvirtMachineProviderSpec) (h : List Call) :
    createCalls (diskStep P vmID response spec h).2 = createCalls h := by
  simp only [diskStep]
  split
  · exact handleDiskExtension_createCalls P vmID response _ h
  · rfl

theorem afterCreate_createCalls (P : Platform) (tag : String) (spec : OvirtMachineProviderSpec)
    (vm : Vm) (response : VmInfo) (h : List Call) :
    createCalls (afterCreate P tag spec vm response h).2 = createCalls h := by
  have hw : createCalls (h ++ [Call.waitForVM response.id VMSTATUS_DOWN]) = createCalls h := by
    simp [createCalls, List.filter_cons, Call.isVmAdd]
  simp only [afterCreate]
  split
  · exact hw
  · have hd := diskStep_createCalls P response.id response spec
      (h ++ [Call.waitForVM response.id VMSTATUS_DOWN])
    split
    · next e h2 heq => rw [heq] at hd; exact hd.trans hw
    · next h2 heq =>
      rw [heq] at hd
      have hn := handleNics_createCalls P response.id spec h2
      split
      · next e h3 heq3 => rw [heq3] at hn; exact hn.trans (hd.trans hw)
      · next h3 heq3 =>
        rw [heq3] at hn
        have ha := handleAffinityGroups_createCalls P response spec.ClusterId
          spec.AffinityGroupsNames (tagStep P response.id tag (autoPinStep P response.id spec h3))
        rw [tagStep_createCalls, autoPinStep_createCalls] at ha
        split
        · next e h6 heq6 => rw [heq6] at ha; exact ha.trans (hn.trans (hd.trans hw))
        · next h6 heq6 => rw [heq6] at ha; exact ha.trans (hn.trans (hd.trans hw))

/-- The create calls of a creation run: those of the trace on entry, followed by one call
carrying the assembled request when the assembly succeeds. -/
theorem CreateVMByMachine_createCalls (P : Platform) (machineName tag ignition : String)
    (spec : OvirtMachineProviderSpec) (h : List Call) :
    createCalls (CreateVMByMachine P machineName tag ignition (some spec) h).2 =
      createCalls h ++
        (match (assembleVm P machineName ignition spec h).1 with
          | .ok vm => [Call.vmAdd vm]
          | .error _ => []) := by
  have hs := assembleVm_createCalls P machineName ignition spec h
  simp only [CreateVMByMachine]
  split
  · next e h1 heq => rw [heq] at hs ⊢; simpa using hs
  · next vm h1 heq =>
    rw [heq] at hs ⊢
    have hv : createCalls (h1 ++ [Call.vmAdd vm]) = createCalls h ++ [Call.vmAdd vm] := by
      rw [createCalls_append, hs]
      simp [createCalls, List.filter_cons, Call.isVmAdd]
    split
    · simpa using hv
    · rw [afterCreate_createCalls]
      simpa using hv

theorem mem_createCalls (t : List Call) (vm : Vm) :
    Call.vmAdd vm ∈ createCalls t ↔ Call.vmAdd vm ∈ t := by
  simp [createCalls, Call.isVmAdd]

/-- The create requests that a creation run adds to the trace are the assembled one. -/
theorem CreateVMByMachine_vmAdd (P : Platform) (machineName tag ignition : String)
    (spec : OvirtMachineProviderSpec) (h : List Call) (vm : Vm)
    (hin : Call.vmAdd vm ∈ (CreateVMByMachine P machineName tag ignition (some spec) h).2)
    (hnew : Call.vmAdd vm ∉ h) :
    ∃ h1, assembleVm P machineName ignition spec h = (.ok vm, h1) := by
  rw [← mem_createCalls, CreateVMByMachine_createCalls, List.mem_append, mem_createCalls] at hin
  rcases hin with hin | hin
  · exact absurd hin hnew
  · generalize hres : assembleVm P machineName ignition spec h = res at hin
    obtain ⟨r, h1⟩ := res
    cases r with
    | error e => simp at hin
    | ok v =>
      simp only [List.mem_singleton, Call.vmAdd.injEq] at hin
      exact ⟨h1, by rw [hin]⟩

/-- A successful assembly is followed by the create call with the assembled request. -/
theorem CreateVMByMachine_sends (P : Platform) (machineName tag ignition : String)
    (spec : OvirtMachineProviderSpec) (h h1 : List Call) (vm : Vm)
    (hok : assembleVm P machineName ignition spec h = (.ok vm, h1)) :
    Call.vmAdd vm ∈ (CreateVMByMachine P machineName tag ignition (some spec) h).2 := by
  rw [← mem_createCalls, CreateVMByMachine_createCalls, hok]
  simp

/-- C1: for a provider spec with a non-empty `InstanceTypeId`, every create request that a
run of `CreateVMByMachine` sends carries an instance-type reference with exactly that id
and sets neither a CPU topology nor a memory value, whatever the `CPU` and `MemoryMB`
fields of the spec contain; and a request that was assembled is sent. -/
theorem createRequest_instanceType (P : Platform) (machineName ovirtClusterID ignition : String)
    (providerSpec : OvirtMachineProviderSpec) (h : List Call)
    (hId : providerSpec.InstanceTypeId ≠ "") :
    (∀ vm,
      Call.vmAdd vm ∈
          (CreateVMByMachine P machineName ovirtClusterID ignition (some providerSpec) h).2 →
        Call.vmAdd vm ∉ h →
        vm.instanceType = some { id := providerSpec.InstanceTypeId } ∧ vm.cpu = none ∧
          vm.memory = none) ∧
      ∀ vm h1, assembleVm P machineName ignition providerSpec h = (.ok vm, h1) →
        Call.vmAdd vm ∈
          (CreateVMByMachine P machineName ovirtClusterID ignition (some providerSpec) h).2 := by
  refine ⟨fun vm hin hnew => ?_, fun vm h1 hok => CreateVMByMachine_sends _ _ _ _ _ _ _ _ hok⟩
  obtain ⟨h1, hok⟩ := CreateVMByMachine_vmAdd P machineName ovirtClusterID ignition providerSpec h vm hin hnew
  have hs := assembleVm_sizing P machineName ignition providerSpec h h1 vm hok
  have hz := sizedVm_instanceType machineName ignition providerSpec hId
  exact ⟨hs.1.trans hz.1, hs.2.1.trans hz.2.1, hs.2.2.trans hz.2.2⟩

/-- Witness of C1: the run on `metalSpec`, which gives CPU and memory next to the instance
type `Metal`, sends `metalRequest`, with the reference `Metal` and no CPU or memory. -/
theorem createRequest_instanceType_witness :
    metalSpec.InstanceTypeId ≠ "" ∧
      Call.vmAdd metalRequest ∈
        (CreateVMByMachine okPlatform "worker-0" "cluster-tag" "ignition" (some metalSpec) []).2 ∧
      metalRequest.instanceType = some { id := metalSpec.InstanceTypeId } ∧
      metalRequest.cpu = none ∧ metalRequest.memory = none :=
  ⟨by decide, by decide,
    (createRequest_instanceType okPlatform "worker-0" "cluster-tag" "ignition" metalSpec []
      (by decide)).1 metalRequest (by decide) (by decide)⟩

/-- C2: for a provider spec with an empty `InstanceTypeId`, a non-nil `CPU` and
`MemoryMB > 0`, every create request that a run of `CreateVMByMachine` sends sets the CPU
topology to the cores, sockets and threads of the spec, sets the memory to exactly
`MemoryMB * 2^20` bytes and sets no instance-type reference; and a request that was
assembled is sent. -/
theorem createRequest_explicitSizing (P : Platform)
    (machineName ovirtClusterID ignition : String) (providerSpec : OvirtMachineProviderSpec)
    (cpu : CPU) (h : List Call) (hId : providerSpec.InstanceTypeId = "")
    (hCpu : providerSpec.CPU = some cpu) (hMem : providerSpec.MemoryMB.val > 0) :
    (∀ vm,
      Call.vmAdd vm ∈
          (CreateVMByMachine P machineName ovirtClusterID ignition (some providerSpec) h).2 →
        Call.vmAdd vm ∉ h →
        vm.cpu = some ⟨some ⟨cpu.Cores.val, cpu.Sockets.val, cpu.Threads.val⟩⟩ ∧
          vm.memory = some (providerSpec.MemoryMB.val * 2 ^ 20) ∧
          vm.instanceType = none) ∧
      ∀ vm h1, assembleVm P machineName ignition providerSpec h = (.ok vm, h1) →
        Call.vmAdd vm ∈
          (CreateVMByMachine P machineName ovirtClusterID ignition (some providerSpec) h).2 := by
  refine ⟨fun vm hin hnew => ?_, fun vm h1 hok => CreateVMByMachine_sends _ _ _ _ _ _ _ _ hok⟩
  obtain ⟨h1, hok⟩ := CreateVMByMachine_vmAdd P machineName ovirtClusterID ignition providerSpec h vm hin hnew
  have hs := assembleVm_sizing P machineName ignition providerSpec h h1 vm hok
  have hz := sizedVm_explicit machineName ignition providerSpec cpu hId hCpu hMem
  have hp : (2 : Int) ^ 20 = 1048576 := by norm_num
  rw [hp]
  exact ⟨hs.2.1.trans hz.2.1, hs.2.2.trans hz.2.2, hs.1.trans hz.1⟩

/-- Witness of C2: the run on `basicValidSpec` (4 cores, 1 socket, 1 thread, 16348 MB)
sends `basicRequest`, with topology 4/1/1, memory `16348 * 1048576` bytes and no
instance-type reference. -/
theorem createRequest_explicitSizing_witness :
    basicValidSpec.InstanceTypeId = "" ∧
      basicValidSpec.MemoryMB.val > 0 ∧
      Call.vmAdd basicRequest ∈
        (CreateVMByMachine okPlatform "worker-0" "cluster-tag" "ignition" (some basicValidSpec)
          []).2 ∧
      basicRequest.cpu = some ⟨some ⟨4, 1, 1⟩⟩ ∧
      basicRequest.memory = some (16348 * 1048576) ∧
      basicRequest.instanceType = none :=
  ⟨by decide, by decide, by decide,
    by
      have hw := (createRequest_explicitSizing okPlatform "worker-0" "cluster-tag" "ignition"
        basicValidSpec ⟨⟨1, by decide, by decide⟩, ⟨4, by decide, by decide⟩,
          ⟨1, by decide, by decide⟩⟩ [] (by decide) (by decide) (by decide)).1 basicRequest
        (by decide) (by decide)
      exact ⟨hw.1, by rw [hw.2.1]; decide, hw.2.2⟩⟩

/-! ## Disk reconciliation -/

/-- The loop over the attachments ends with the last attachment flagged bootable. -/
theorem bootableDiskAttachment_eq_last (attachments : List DiskAttachment) :
    bootableDiskAttachment attachments =
      (attachments.filter (fun d => d.bootable)).getLast? := by
  unfold bootableDiskAttachment
  induction attachments using List.reverseRecOn with
  | nil => rfl
  | append_singleton l x ih =>
    rw [List.foldl_append, List.filter_append]
    simp only [List.foldl_cons, List.foldl_nil]
    by_cases hx : x.bootable = true
    · simp [hx, List.filter_cons]
    · simp [hx, List.filter_cons, ih]

theorem bootableDiskAttachment_none (attachments : List DiskAttachment)
    (hnone : ∀ d ∈ attachments, d.bootable = false) :
    bootableDiskAttachment attachments = none := by
  rw [bootableDiskAttachment_eq_last]
  have : attachments.filter (fun d => d.bootable) = [] := by
    simp [List.filter_eq_nil_iff]
    exact hnone
  rw [this]
  rfl

theorem bootableDiskAttachment_some (attachments : List DiskAttachment)
    (hsome : ∃ d ∈ attachments, d.bootable = true) :
    ∃ a, bootableDiskAttachment attachments = some a := by
  rw [bootableDiskAttachment_eq_last]
  obtain ⟨d, hd, hb⟩ := hsome
  have hne : attachments.filter (fun d => d.bootable) ≠ [] := by
    intro h0
    have : d ∈ attachments.filter (fun d => d.bootable) := by simp [hd, hb]
    rw [h0] at this
    simp at this
  exact ⟨_, List.getLast?_eq_getLast _ hne⟩

theorem newDiskSize_exact (osDisk : Disk) (lo : -8589934592 ≤ osDisk.SizeGB)
    (hi : osDisk.SizeGB < 8589934592) : newDiskSize osDisk = osDisk.SizeGB * 2 ^ 30 := by
  have h1 : int64 1073741824 = 1073741824 := by decide
  have hp : (2 : Int) ^ 30 = 1073741824 := by norm_num
  unfold newDiskSize
  rw [h1, hp, int64_of_range] <;> omega

/-- The run of `handleDiskExtension` once the attachments are listed, a bootable
attachment is found and its disk is read. -/
theorem handleDiskExtension_read (P : Platform) (vmService : String) (createdVM : VmInfo)
    (osDisk : Disk) (h : List Call) (attachments : List DiskAttachment)
    (attachment : DiskAttachment) (disk : DiskInfo)
    (hList : P.diskAttachmentsList (h ++ [Call.diskAttachmentsList vmService]) = .ok attachments)
    (hBoot : bootableDiskAttachment attachments = some attachment)
    (hDisk : P.diskGet (h ++ [Call.diskAttachmentsList vmService] ++
      [Call.diskGet attachment.id]) = .ok disk) :
    handleDiskExtension P vmService createdVM osDisk h =
      if newDiskSize osDisk > disk.provisionedSize then
        match P.diskAttachmentUpdate (h ++ [Call.diskAttachmentsList vmService] ++
            [Call.diskGet attachment.id] ++
            [Call.diskAttachmentUpdate vmService attachment.id
              { attachment with disk := some { provisionedSize := newDiskSize osDisk } }]) with
        | some e =>
          (some (.msg ("failed to update the OS disk - " ++ e.text)),
            h ++ [Call.diskAttachmentsList vmService] ++ [Call.diskGet attachment.id] ++
              [Call.diskAttachmentUpdate vmService attachment.id
                { attachment with disk := some { provisionedSize := newDiskSize osDisk } }])
        | none =>
          (P.waitForDisk (h ++ [Call.diskAttachmentsList vmService] ++
              [Call.diskGet attachment.id] ++
              [Call.diskAttachmentUpdate vmService attachment.id
                { attachment with disk := some { provisionedSize := newDiskSize osDisk } }] ++
              [Call.waitForDisk attachment.id DISKSTATUS_OK]),
            h ++ [Call.diskAttachmentsList vmService] ++ [Call.diskGet attachment.id] ++
              [Call.diskAttachmentUpdate vmService attachment.id
                { attachment with disk := some { provisionedSize := newDiskSize osDisk } }] ++
              [Call.waitForDisk attachment.id DISKSTATUS_OK])
      else (none, h ++ [Call.diskAttachmentsList vmService] ++ [Call.diskGet attachment.id]) := by
  simp only [handleDiskExtension, hList, hBoot, hDisk]
  split
  · split
    · rfl
    · split
      · next e hw => rw [hw]
      · next hw => rw [hw]
  · rfl

/-- C3 (amended): in a run of `handleDiskExtension` in which a bootable disk is found and
its current size is read, and `SizeGB * 2^30` fits the `int64` in which the code computes
it (`-2^33 ≤ SizeGB < 2^33`), let `desired = SizeGB * 2^30`.  If `desired ≤ current`, no
update and no wait are issued and the result is success.  If `desired > current`, exactly
one update is issued, carrying the desired size; when the update fails the step fails and
no wait is issued; when it succeeds exactly one wait for disk status OK follows and the
result of the step is the result of that wait. -/
theorem handleDiskExtension_resize (P : Platform) (vmService : String) (createdVM : VmInfo)
    (osDisk : Disk) (h : List Call) (attachments : List DiskAttachment)
    (attachment : DiskAttachment) (disk : DiskInfo)
    (hList : P.diskAttachmentsList (h ++ [Call.diskAttachmentsList vmService]) = .ok attachments)
    (hBoot : bootableDiskAttachment attachments = some attachment)
    (hDisk : P.diskGet (h ++ [Call.diskAttachmentsList vmService, Call.diskGet attachment.id])
      = .ok disk)
    (lo : -8589934592 ≤ osDisk.SizeGB) (hi : osDisk.SizeGB < 8589934592) :
    (osDisk.SizeGB * 2 ^ 30 ≤ disk.provisionedSize →
      handleDiskExtension P vmService createdVM osDisk h =
        (none, h ++ [Call.diskAttachmentsList vmService, Call.diskGet attachment.id])) ∧
    (osDisk.SizeGB * 2 ^ 30 > disk.provisionedSize →
      (∀ e,
        P.diskAttachmentUpdate (h ++ [Call.diskAttachmentsList vmService,
          Call.diskGet attachment.id, resizeCall vmService attachment (osDisk.SizeGB * 2 ^ 30)])
            = some e →
        (handleDiskExtension P vmService createdVM osDisk h).1 ≠ none ∧
        (handleDiskExtension P vmService createdVM osDisk h).2 =
          h ++ [Call.diskAttachmentsList vmService, Call.diskGet attachment.id,
            resizeCall vmService attachment (osDisk.SizeGB * 2 ^ 30)]) ∧
      (P.diskAttachmentUpdate (h ++ [Call.diskAttachmentsList vmService,
          Call.diskGet attachment.id, resizeCall vmService attachment (osDisk.SizeGB * 2 ^ 30)])
            = none →
        (handleDiskExtension P vmService createdVM osDisk h).1 =
          P.waitForDisk (h ++ [Call.diskAttachmentsList vmService, Call.diskGet attachment.id,
            resizeCall vmService attachment (osDisk.SizeGB * 2 ^ 30),
            Call.waitForDisk attachment.id DISKSTATUS_OK]) ∧
        (handleDiskExtension P vmService createdVM osDisk h).2 =
          h ++ [Call.diskAttachmentsList vmService, Call.diskGet attachment.id,
            resizeCall vmService attachment (osDisk.SizeGB * 2 ^ 30),
            Call.waitForDisk attachment.id DISKSTATUS_OK])) := by
  have hDisk2 : P.diskGet (h ++ [Call.diskAttachmentsList vmService] ++
      [Call.diskGet attachment.id]) = .ok disk := by
    simpa using hDisk
  have hrun := handleDiskExtension_read P vmService createdVM osDisk h attachments attachment
    disk hList hBoot hDisk2
  rw [← newDiskSize_exact osDisk lo hi]
  refine ⟨fun hle => ?_, fun hgt => ⟨?_, ?_⟩⟩
  · rw [hrun, if_neg (not_lt.mpr hle)]
    simp
  · intro e he
    rw [hrun, if_pos hgt]
    simp only [resizeCall] at he
    simp only [List.append_assoc, List.singleton_append, List.cons_append, List.nil_append,
      he, resizeCall]
    simp
  · intro hn
    rw [hrun, if_pos hgt]
    simp only [resizeCall] at hn
    simp only [List.append_assoc, List.singleton_append, List.cons_append, List.nil_append,
      hn, resizeCall]
    simp

/-- Witness of C3 (amended): on `okPlatform` the boot disk has 10 GiB; a spec asking for
31 GB gives one update to `31 * 2^30` bytes followed by one wait, and success. -/
theorem handleDiskExtension_resize_witness :
    (31 : Int) * 2 ^ 30 > 10737418240 ∧
      handleDiskExtension okPlatform "vm-1" sampleVm { SizeGB := 31 } [] =
        (none, [Call.diskAttachmentsList "vm-1", Call.diskGet "disk-a",
          resizeCall "vm-1" { id := "disk-a", bootable := true, disk := none } (31 * 2 ^ 30),
          Call.waitForDisk "disk-a" DISKSTATUS_OK]) := by
  have hw := handleDiskExtension_resize okPlatform "vm-1" sampleVm { SizeGB := 31 } []
    [{ id := "disk-a", bootable := true, disk := none }]
    { id := "disk-a", bootable := true, disk := none } { provisionedSize := 10737418240 }
    rfl rfl rfl (by decide) (by decide)
  have hgt : (31 : Int) * 2 ^ 30 > 10737418240 := by norm_num
  have h2 := (hw.2 hgt).2 rfl
  exact ⟨hgt, Prod.ext h2.1 h2.2⟩

/-- Counterexample to C3 as stated.  First part: with `SizeGB = 2^33` the product
`SizeGB * 2^30` exceeds the current size of 10 GiB, yet the `int64` product of line 181
wraps to `-2^63` and no update is issued.  Second part: with 31 GB against 10 GiB the
update is issued and rejected, and no wait follows. -/
theorem handleDiskExtension_claim_fails :
    ((8589934592 : Int) * 1073741824 > 10737418240 ∧
      newDiskSize { SizeGB := 8589934592 } = -9223372036854775808 ∧
      handleDiskExtension okPlatform "vm-1" sampleVm { SizeGB := 8589934592 } [] =
        (none, [Call.diskAttachmentsList "vm-1", Call.diskGet "disk-a"])) ∧
    ((31 : Int) * 1073741824 > 10737418240 ∧
      handleDiskExtension updateFailsPlatform "vm-1" sampleVm { SizeGB := 31 } [] =
        (some (.msg "failed to update the OS disk - update rejected"),
          [Call.diskAttachmentsList "vm-1", Call.diskGet "disk-a",
            resizeCall "vm-1" { id := "disk-a", bootable := true, disk := none }
              33285996544])) := by
  decide

/-- C4 (amended): once the attachments are listed, if at least one is flagged bootable then
the disk that `handleDiskExtension` reads and resizes is the last attachment in the list
flagged bootable: the disk read follows the listing with that attachment's id, and every
later request of the run is the update of that attachment or the wait for its disk.  When
no attachment is flagged bootable the step returns an error and has issued nothing but the
listing. -/
theorem handleDiskExtension_bootable (P : Platform) (vmService : String) (createdVM : VmInfo)
    (osDisk : Disk) (h : List Call) (attachments : List DiskAttachment)
    (hList : P.diskAttachmentsList (h ++ [Call.diskAttachmentsList vmService]) = .ok attachments) :
    ((∃ d ∈ attachments, d.bootable = true) →
      ∃ last rest,
        (attachments.filter (fun d => d.bootable)).getLast? = some last ∧
        (handleDiskExtension P vmService createdVM osDisk h).2 =
          h ++ [Call.diskAttachmentsList vmService, Call.diskGet last.id] ++ rest ∧
        ∀ c ∈ rest,
          c = resizeCall vmService last (newDiskSize osDisk) ∨
            c = Call.waitForDisk last.id DISKSTATUS_OK) ∧
    ((∀ d ∈ attachments, d.bootable = false) →
      ∃ e, handleDiskExtension P vmService createdVM osDisk h =
        (some e, h ++ [Call.diskAttachmentsList vmService])) := by
  constructor
  · intro hsome
    obtain ⟨last, hlast⟩ := bootableDiskAttachment_some attachments hsome
    have hfilter := bootableDiskAttachment_eq_last attachments
    rw [hlast] at hfilter
    cases hget : P.diskGet (h ++ [Call.diskAttachmentsList vmService] ++
        [Call.diskGet last.id]) with
    | error e =>
      refine ⟨last, [], hfilter.symm, ?_, by simp⟩
      simp only [handleDiskExtension, hList, hlast, hget]
      simp
    | ok disk =>
      have hrun := handleDiskExtension_read P vmService createdVM osDisk h attachments last
        disk hList hlast hget
      by_cases hgt : newDiskSize osDisk > disk.provisionedSize
      · rw [if_pos hgt] at hrun
        split at hrun
        · refine ⟨last, [resizeCall vmService last (newDiskSize osDisk)], hfilter.symm, ?_,
            by simp⟩
          rw [hrun]
          simp [resizeCall]
        · refine ⟨last, [resizeCall vmService last (newDiskSize osDisk),
            Call.waitForDisk last.id DISKSTATUS_OK], hfilter.symm, ?_, by simp⟩
          rw [hrun]
          simp [resizeCall]
      · rw [if_neg hgt] at hrun
        refine ⟨last, [], hfilter.symm, ?_, by simp⟩
        rw [hrun]
        simp
  · intro hnone
    have hb := bootableDiskAttachment_none attachments hnone
    simp [handleDiskExtension, hList, hb]

/-- Witness of C4 (amended): with the attachments `disk-a` and `disk-b` both flagged
bootable, the run reads `disk-b`, the last one, and no request names `disk-a`. -/
theorem handleDiskExtension_bootable_witness :
    Call.diskGet "disk-b" ∈
        (handleDiskExtension twoBootablePlatform "vm-1" sampleVm { SizeGB := 31 } []).2 ∧
      Call.diskGet "disk-a" ∉
        (handleDiskExtension twoBootablePlatform "vm-1" sampleVm { SizeGB := 31 } []).2 := by
  obtain ⟨last, rest, hl, ht, hc⟩ :=
    (handleDiskExtension_bootable twoBootablePlatform "vm-1" sampleVm { SizeGB := 31 } []
      [{ id := "disk-a", bootable := true, disk := none },
        { id := "disk-b", bootable := true, disk := none }] rfl).1
      ⟨{ id := "disk-a", bootable := true, disk := none }, by decide, rfl⟩
  have h2 : (([{ id := "disk-a", bootable := true, disk := none },
      { id := "disk-b", bootable := true, disk := none }] : List DiskAttachment).filter
        (fun d => d.bootable)).getLast? = some { id := "disk-b", bootable := true, disk := none } := by
    decide
  rw [h2] at hl
  have hb := Option.some.inj hl
  subst hb
  rw [ht]
  constructor
  · simp
  · intro hmem
    simp only [List.nil_append, List.mem_append, List.mem_cons, List.mem_singleton,
      List.not_mem_nil, or_false, reduceCtorEq, false_or, Call.diskGet.injEq] at hmem
    rcases hmem with hmem | hmem
    · exact absurd hmem (by decide)
    · rcases hc _ hmem with hr | hr
      · simp [resizeCall] at hr
      · simp at hr

/-- Counterexample to C4 as stated: with the attachments `disk-a` and `disk-b` both flagged
bootable, the first attachment flagged bootable is `disk-a`, and the run reads and resizes
`disk-b`; no request of the run names `disk-a`. -/
theorem handleDiskExtension_first_fails :
    twoBootablePlatform.diskAttachmentsList [Call.diskAttachmentsList "vm-1"] =
        .ok [{ id := "disk-a", bootable := true, disk := none },
          { id := "disk-b", bootable := true, disk := none }] ∧
      ([{ id := "disk-a", bootable := true, disk := none },
        { id := "disk-b", bootable := true, disk := none }] : List DiskAttachment).find?
          (fun d => d.bootable) = some { id := "disk-a", bootable := true, disk := none } ∧
      handleDiskExtension twoBootablePlatform "vm-1" sampleVm { SizeGB := 31 } [] =
        (none, [Call.diskAttachmentsList "vm-1", Call.diskGet "disk-b",
          resizeCall "vm-1" { id := "disk-b", bootable := true, disk := none } 33285996544,
          Call.waitForDisk "disk-b" DISKSTATUS_OK]) := by
  decide

/-! ## Network reconciliation -/

theorem removeNics_ok (P : Platform) (vmService : String) (nics : List NicInfo) (h : List Call)
    (hRem : ∀ t, P.nicRemove t = none) :
    removeNics P vmService nics h = (none, h ++ removeCalls vmService nics) := by
  induction nics generalizing h with
  | nil => simp [removeNics, removeCalls]
  | cons n rest ih =>
    simp only [removeNics, hRem, ih]
    simp [removeCalls]

theorem removeNics_of_success (P : Platform) (vmService : String) (nics : List NicInfo)
    (h : List Call) (hok : (removeNics P vmService nics h).1 = none) :
    (removeNics P vmService nics h).2 = h ++ removeCalls vmService nics := by
  induction nics generalizing h with
  | nil => simp [removeNics, removeCalls]
  | cons n rest ih =>
    simp only [removeNics] at hok ⊢
    split at hok
    · simp at hok
    · rw [ih _ hok]
      simp [removeCalls]

theorem addNics_ok (P : Platform) (vmService : String) (i : Nat)
    (nics : List NetworkInterface) (h : List Call) (hAdd : ∀ t, P.nicAdd t = none) :
    addNics P vmService i nics h = (none, h ++ addCalls vmService i nics) := by
  induction nics generalizing h i with
  | nil => simp [addNics, addCalls]
  | cons n rest ih =>
    simp only [addNics, hAdd, ih]
    simp [addCalls, List.enumFrom_cons]

theorem addNics_of_success (P : Platform) (vmService : String) (i : Nat)
    (nics : List NetworkInterface) (h : List Call)
    (hok : (addNics P vmService i nics h).1 = none) :
    (addNics P vmService i nics h).2 = h ++ addCalls vmService i nics := by
  induction nics generalizing h i with
  | nil => simp [addNics, addCalls]
  | cons n rest ih =>
    simp only [addNics] at hok ⊢
    split at hok
    · simp at hok
    · rw [ih _ _ hok]
      simp [addCalls, List.enumFrom_cons]

/-- C5: a run of `handleNics` with no desired interface issues no request and succeeds.
With a non-empty list of desired interfaces and the existing interfaces listed: when every
remove and add request succeeds the run succeeds, and whenever the run succeeds the
requests it has issued are the listing, then one remove per existing interface by its id,
then one add per desired entry in spec order, the i-th named `nic<i>` and bound to the
i-th entry's VNIC profile id. -/
theorem handleNics_requests (P : Platform) (vmService : String)
    (spec : OvirtMachineProviderSpec) (h : List Call) :
    (spec.NetworkInterfaces = [] → handleNics P vmService spec h = (none, h)) ∧
    (spec.NetworkInterfaces ≠ [] →
      ∀ existing, P.nicsList (h ++ [Call.nicsList vmService]) = .ok existing →
        (((∀ t, P.nicRemove t = none) → (∀ t, P.nicAdd t = none) →
            (handleNics P vmService spec h).1 = none) ∧
          ((handleNics P vmService spec h).1 = none →
            (handleNics P vmService spec h).2 =
              h ++ [Call.nicsList vmService] ++ removeCalls vmService existing ++
                addCalls vmService 0 spec.NetworkInterfaces))) := by
  constructor
  · intro hnil
    simp [handleNics, hnil]
  · intro hne existing hList
    have hlen : ¬ spec.NetworkInterfaces.length = 0 := by
      simpa [List.length_eq_zero] using hne
    constructor
    · intro hRem hAdd
      simp only [handleNics, hlen, if_false, hList]
      rw [removeNics_ok P vmService existing _ hRem]
      simp only []
      rw [addNics_ok P vmService 0 _ _ hAdd]
    · intro hok
      simp only [handleNics, hlen, if_false, hList] at hok ⊢
      have hr := removeNics_of_success P vmService existing (h ++ [Call.nicsList vmService])
      split at hok
      · simp at hok
      · next h2 heq =>
        rw [heq] at hr
        have hr2 : h2 = h ++ [Call.nicsList vmService] ++ removeCalls vmService existing :=
          hr rfl
        rw [addNics_of_success P vmService 0 _ _ hok, hr2]

/-- Witness of C5: on `okPlatform`, which reports the interfaces `nic-x` and `nic-y`, a
spec with two desired interfaces gives the listing, two removes, then the adds `nic1` and
`nic2`. -/
theorem handleNics_requests_witness :
    twoNicSpec.NetworkInterfaces ≠ [] ∧
      handleNics okPlatform "vm-1" twoNicSpec [] =
        (none, [Call.nicsList "vm-1", Call.nicRemove "vm-1" "nic-x",
          Call.nicRemove "vm-1" "nic-y",
          Call.nicAdd "vm-1" { name := "nic1", vnicProfileId := "profile-a" },
          Call.nicAdd "vm-1" { name := "nic2", vnicProfileId := "profile-b" }]) := by
  have hw := (handleNics_requests okPlatform "vm-1" twoNicSpec []).2 (by decide)
    [{ id := "nic-x" }, { id := "nic-y" }] rfl
  have h1 := hw.1 (fun _ => rfl) (fun _ => rfl)
  have h2 := hw.2 h1
  refine ⟨by decide, Prod.ext h1 ?_⟩
  rw [h2]
  decide

/-! ## Affinity groups -/

theorem mapGet_eq_none (m : List (String × AffinityGroup)) (key : String) :
    mapGet m key = none ↔ ∀ p ∈ m, p.1 ≠ key := by
  induction m with
  | nil => simp [mapGet]
  | cons p rest ih =>
    obtain ⟨k, v⟩ := p
    simp only [mapGet]
    by_cases hk : k = key
    · simp [hk]
    · simp [hk, ih]

theorem agNamesMap_keys (groups : List AffinityGroup) (p : String × AffinityGroup) :
    p ∈ agNamesMap groups ↔ ∃ g ∈ groups, p = (g.name, g) := by
  have hgen : ∀ (m : List (String × AffinityGroup)),
      p ∈ groups.foldl (fun m af => (af.name, af) :: m) m ↔
        (∃ g ∈ groups, p = (g.name, g)) ∨ p ∈ m := by
    induction groups with
    | nil => simp
    | cons g rest ih =>
      intro m
      rw [List.foldl_cons, ih]
      simp only [List.mem_cons, exists_eq_or_imp]
      constructor
      · rintro (hA | hB | hC)
        · exact Or.inl (Or.inr hA)
        · exact Or.inl (Or.inl hB)
        · exact Or.inr hC
      · rintro ((hB | hA) | hC)
        · exact Or.inr (Or.inl hB)
        · exact Or.inl hA
        · exact Or.inr (Or.inr hC)
  simpa [agNamesMap] using hgen []

/-- A name is missing from the map exactly when no listed group carries it. -/
theorem mapGet_agNamesMap_none (groups : List AffinityGroup) (name : String) :
    mapGet (agNamesMap groups) name = none ↔ ∀ g ∈ groups, g.name ≠ name := by
  rw [mapGet_eq_none]
  constructor
  · intro hm g hg
    exact hm (g.name, g) ((agNamesMap_keys groups _).mpr ⟨g, hg, rfl⟩)
  · intro hg p hp
    obtain ⟨g, hgin, rfl⟩ := (agNamesMap_keys groups p).mp hp
    exact hg g hgin

theorem resolveGroups_missing (cID : String) (m : List (String × AffinityGroup))
    (names : List String) (ag : List AffinityGroup)
    (hmiss : ∃ n ∈ names, mapGet m n = none) :
    ∃ e, resolveGroups cID m names ag = .error e := by
  induction names generalizing ag with
  | nil => simp at hmiss
  | cons n rest ih =>
    simp only [resolveGroups]
    cases hn : mapGet m n with
    | none => exact ⟨_, rfl⟩
    | some g =>
      simp only []
      apply ih
      obtain ⟨x, hx, hxn⟩ := hmiss
      rcases List.mem_cons.mp hx with rfl | hx
      · rw [hn] at hxn
        simp at hxn
      · exact ⟨x, hx, hxn⟩

/-- C6: for every list of requested affinity-group names and every list of groups that the
cluster reports, if at least one requested name matches no group then
`handleAffinityGroups` returns an error and the only request it has issued is the listing:
no add-membership request is sent, also not for requested names that precede the
unresolved one and do resolve. -/
theorem handleAffinityGroups_unresolved (P : Platform) (vm : VmInfo) (cID : String)
    (agsName : List String) (h : List Call) (groups : List AffinityGroup)
    (hList : P.affinityGroupsList (h ++ [Call.affinityGroupsList cID]) = .ok groups)
    (hMiss : ∃ n ∈ agsName, ∀ g ∈ groups, g.name ≠ n) :
    ∃ e, handleAffinityGroups P vm cID agsName h =
      (some e, h ++ [Call.affinityGroupsList cID]) := by
  obtain ⟨n, hn, hg⟩ := hMiss
  obtain ⟨e, he⟩ := resolveGroups_missing cID (agNamesMap groups) agsName []
    ⟨n, hn, (mapGet_agNamesMap_none groups n).mpr hg⟩
  exact ⟨e, by simp [handleAffinityGroups, getAffinityGroups, hList, he]⟩

/-- Witness of C6: `okPlatform` defines the group `compute` only; asking for `compute` and
`missing` gives an error after the listing alone. -/
theorem handleAffinityGroups_unresolved_witness :
    handleAffinityGroups okPlatform sampleVm "cluster-1" ["compute", "missing"] [] =
      (some (.msg "affinity group missing was not found on cluster cluster-1"),
        [Call.affinityGroupsList "cluster-1"]) := by
  obtain ⟨e, he⟩ := handleAffinityGroups_unresolved okPlatform sampleVm "cluster-1"
    ["compute", "missing"] [] [{ id := "ag-1", name := "compute" }] rfl
    ⟨"missing", by decide, by decide⟩
  rw [he]
  have h1 : (handleAffinityGroups okPlatform sampleVm "cluster-1" ["compute", "missing"] []).1 =
      some (.msg "affinity group missing was not found on cluster cluster-1") := by decide
  rw [he] at h1
  simp only [Option.some.injEq] at h1
  rw [h1]
  rfl

/-! ## Best-effort and failing steps of a creation run -/

/-- The run of `CreateVMByMachine` once the request is assembled, the create call and the
stability wait succeed, and disk and network reconciliation succeed: the result is the
result of the affinity-group step, entered after the auto-pinning and tag requests. -/
theorem CreateVMByMachine_reach_affinity (P : Platform)
    (machineName ovirtClusterID ignition : String) (providerSpec : OvirtMachineProviderSpec)
    (h h1 h4 h5 : List Call) (vm : Vm) (response : VmInfo)
    (hAsm : assembleVm P machineName ignition providerSpec h = (.ok vm, h1))
    (hAdd : P.vmAdd (h1 ++ [Call.vmAdd vm]) = .ok response)
    (hWait : P.waitForVM (h1 ++ [Call.vmAdd vm, Call.waitForVM response.id VMSTATUS_DOWN])
      = none)
    (hDisk : diskStep P response.id response providerSpec
      (h1 ++ [Call.vmAdd vm, Call.waitForVM response.id VMSTATUS_DOWN]) = (none, h4))
    (hNics : handleNics P response.id providerSpec h4 = (none, h5)) :
    CreateVMByMachine P machineName ovirtClusterID ignition (some providerSpec) h =
      match handleAffinityGroups P response providerSpec.ClusterId
          providerSpec.AffinityGroupsNames
          ((if isAutoPinning providerSpec then
              h5 ++ [Call.autoPin response.id
                (decide (providerSpec.AutoPinningPolicy = AUTOPINNINGPOLICY_ADJUST))]
            else h5) ++ [Call.tagAdd response.id ovirtClusterID]) with
      | (some e, h7) => (.error e, h7)
      | (none, h7) => (.ok { vm := response }, h7) := by
  have hWait2 : P.waitForVM (h1 ++ [Call.vmAdd vm] ++ [Call.waitForVM response.id VMSTATUS_DOWN])
      = none := by simpa using hWait
  have hDisk2 : diskStep P response.id response providerSpec
      (h1 ++ [Call.vmAdd vm] ++ [Call.waitForVM response.id VMSTATUS_DOWN]) = (none, h4) := by
    simpa using hDisk
  simp only [CreateVMByMachine, hAsm, hAdd, afterCreate, hWait2, hDisk2, hNics,
    tagStep_trace, autoPinStep_trace]

/-- C8: in a creation run in which the request is assembled and the create call, the
stability wait, disk reconciliation, network reconciliation and affinity-group binding all
succeed, `CreateVMByMachine` returns the created instance with no error.  No hypothesis
mentions the answers of the platform to the auto-pinning request and the tag request:
the result is the same whether or not they fail. -/
theorem CreateVMByMachine_ignores_pin_and_tag (P : Platform)
    (machineName ovirtClusterID ignition : String) (providerSpec : OvirtMachineProviderSpec)
    (h h1 h4 h5 h7 : List Call) (vm : Vm) (response : VmInfo)
    (hAsm : assembleVm P machineName ignition providerSpec h = (.ok vm, h1))
    (hAdd : P.vmAdd (h1 ++ [Call.vmAdd vm]) = .ok response)
    (hWait : P.waitForVM (h1 ++ [Call.vmAdd vm, Call.waitForVM response.id VMSTATUS_DOWN])
      = none)
    (hDisk : diskStep P response.id response providerSpec
      (h1 ++ [Call.vmAdd vm, Call.waitForVM response.id VMSTATUS_DOWN]) = (none, h4))
    (hNics : handleNics P response.id providerSpec h4 = (none, h5))
    (hAff : handleAffinityGroups P response providerSpec.ClusterId
      providerSpec.AffinityGroupsNames
      ((if isAutoPinning providerSpec then
          h5 ++ [Call.autoPin response.id
            (decide (providerSpec.AutoPinningPolicy = AUTOPINNINGPOLICY_ADJUST))]
        else h5) ++ [Call.tagAdd response.id ovirtClusterID]) = (none, h7)) :
    CreateVMByMachine P machineName ovirtClusterID ignition (some providerSpec) h =
      (.ok { vm := response }, h7) := by
  rw [CreateVMByMachine_reach_affinity P machineName ovirtClusterID ignition providerSpec
    h h1 h4 h5 vm response hAsm hAdd hWait hDisk hNics, hAff]

/-- C7 (amended): in a creation run in which the request is assembled and the create call,
the stability wait, disk reconciliation and network reconciliation all succeed, a failure
of the affinity-group binding step (an unresolved group name, a failed group listing, or
an add-membership error that is not tolerated) is not absorbed: `CreateVMByMachine`
returns that error and no instance. -/
theorem CreateVMByMachine_affinity_error (P : Platform)
    (machineName ovirtClusterID ignition : String) (providerSpec : OvirtMachineProviderSpec)
    (h h1 h4 h5 h7 : List Call) (vm : Vm) (response : VmInfo) (e : Err)
    (hAsm : assembleVm P machineName ignition providerSpec h = (.ok vm, h1))
    (hAdd : P.vmAdd (h1 ++ [Call.vmAdd vm]) = .ok response)
    (hWait : P.waitForVM (h1 ++ [Call.vmAdd vm, Call.waitForVM response.id VMSTATUS_DOWN])
      = none)
    (hDisk : diskStep P response.id response providerSpec
      (h1 ++ [Call.vmAdd vm, Call.waitForVM response.id VMSTATUS_DOWN]) = (none, h4))
    (hNics : handleNics P response.id providerSpec h4 = (none, h5))
    (hAff : handleAffinityGroups P response providerSpec.ClusterId
      providerSpec.AffinityGroupsNames
      ((if isAutoPinning providerSpec then
          h5 ++ [Call.autoPin response.id
            (decide (providerSpec.AutoPinningPolicy = AUTOPINNINGPOLICY_ADJUST))]
        else h5) ++ [Call.tagAdd response.id ovirtClusterID]) = (some e, h7)) :
    CreateVMByMachine P machineName ovirtClusterID ignition (some providerSpec) h =
      (.error e, h7) := by
  rw [CreateVMByMachine_reach_affinity P machineName ovirtClusterID ignition providerSpec
    h h1 h4 h5 vm response hAsm hAdd hWait hDisk hNics, hAff]

/-- Witness of C8: on `pinTagFailPlatform` every auto-pinning request and every tag request
fails, and the creation run for `pinnedSpec` still returns the created VM. -/
theorem CreateVMByMachine_ignores_pin_and_tag_witness :
    pinTagFailPlatform.autoPin = (fun _ => some (.msg "pinning rejected")) ∧
      pinTagFailPlatform.tagAdd = (fun _ => some (.msg "tag rejected")) ∧
      (CreateVMByMachine pinTagFailPlatform "worker-0" "cluster-tag" "ignition"
        (some pinnedSpec) []).1 = .ok { vm := sampleVm } :=
  ⟨rfl, rfl,
    congrArg Prod.fst
      (CreateVMByMachine_ignores_pin_and_tag pinTagFailPlatform "worker-0" "cluster-tag"
        "ignition" pinnedSpec [] _ _ _ _ _ sampleVm rfl rfl rfl rfl rfl rfl)⟩

/-- Witness of C7 (amended): on `okPlatform` the creation run for `missingGroupSpec` gets
through disk and network reconciliation and returns the error of the unresolved group. -/
theorem CreateVMByMachine_affinity_error_witness :
    (CreateVMByMachine okPlatform "worker-0" "cluster-tag" "ignition" (some missingGroupSpec)
      []).1 = .error missingGroupError :=
  congrArg Prod.fst
    (CreateVMByMachine_affinity_error okPlatform "worker-0" "cluster-tag" "ignition"
      missingGroupSpec [] [] reconciledTrace reconciledTrace _ basicRequest sampleVm
      missingGroupError (by decide) (by decide) (by decide) (by decide) (by decide) rfl)

/-- Counterexample to C7 as stated: on `okPlatform`, for `missingGroupSpec`, the request is
assembled, the create call and the stability wait succeed, disk and network
reconciliation succeed, the affinity-group step fails on the name `missing`, and
`CreateVMByMachine` returns that error instead of the created instance. -/
theorem CreateVMByMachine_affinity_not_absorbed :
    assembleVm okPlatform "worker-0" "ignition" missingGroupSpec [] = (.ok basicRequest, []) ∧
    okPlatform.vmAdd [Call.vmAdd basicRequest] = .ok sampleVm ∧
    okPlatform.waitForVM [Call.vmAdd basicRequest, Call.waitForVM "vm-1" VMSTATUS_DOWN]
      = none ∧
    diskStep okPlatform "vm-1" sampleVm missingGroupSpec
      [Call.vmAdd basicRequest, Call.waitForVM "vm-1" VMSTATUS_DOWN] = (none, reconciledTrace) ∧
    handleNics okPlatform "vm-1" missingGroupSpec reconciledTrace = (none, reconciledTrace) ∧
    CreateVMByMachine okPlatform "worker-0" "cluster-tag" "ignition" (some missingGroupSpec) [] =
      (.error missingGroupError,
        reconciledTrace ++ [Call.tagAdd "vm-1" "cluster-tag",
          Call.affinityGroupsList "46991e3f-8752-4ab6-9f2d-c37a98358d52"]) := by
  decide

/-! ## Teardown -/

/-- The last poll of `DeleteVM` ends with no error or with the timeout error. -/
theorem pollImmediate_gone_cases (P : Platform) (id : String) (ticks : Nat) (t : List Call) :
    (pollImmediate (goneCondition P id) ticks t).1 = none ∨
      (pollImmediate (goneCondition P id) ticks t).1 = some .waitTimeout := by
  induction ticks generalizing t with
  | zero =>
    simp only [pollImmediate, goneCondition]
    cases P.vmGet (t ++ [Call.vmGet id]) <;> simp
  | succ n ih =>
    simp only [pollImmediate, goneCondition]
    cases P.vmGet (t ++ [Call.vmGet id]) with
    | error e => simp
    | ok v => exact ih _

/-- The last poll of `DeleteVM` ends with no error exactly when one of its reads, the
first and one per tick, fails. -/
theorem pollImmediate_gone_none (P : Platform) (id : String) (ticks : Nat) (t : List Call) :
    (pollImmediate (goneCondition P id) ticks t).1 = none ↔
      ∃ k, k ≤ ticks ∧
        ∃ e, P.vmGet (t ++ List.replicate (k + 1) (Call.vmGet id)) = .error e := by
  induction ticks generalizing t with
  | zero =>
    simp only [pollImmediate, goneCondition]
    cases hget : P.vmGet (t ++ [Call.vmGet id]) with
    | error e =>
      simp only [true_iff]
      exact ⟨0, le_refl 0, e, by simpa using hget⟩
    | ok v =>
      simp only [false_iff, reduceCtorEq]
      rintro ⟨k, hk, e, he⟩
      have hk0 : k = 0 := by omega
      subst hk0
      simp only [zero_add, List.replicate_one] at he
      rw [hget] at he
      simp at he
  | succ n ih =>
    simp only [pollImmediate, goneCondition]
    cases hget : P.vmGet (t ++ [Call.vmGet id]) with
    | error e =>
      simp only [true_iff]
      exact ⟨0, Nat.zero_le _, e, by simpa using hget⟩
    | ok v =>
      simp only []
      rw [ih]
      constructor
      · rintro ⟨k, hk, e, he⟩
        refine ⟨k + 1, by omega, e, ?_⟩
        rw [List.replicate_succ (n := k + 1)]
        simpa using he
      · rintro ⟨k, hk, e, he⟩
        cases k with
        | zero =>
          simp only [zero_add, List.replicate_one] at he
          rw [hget] at he
          simp at he
        | succ j =>
          refine ⟨j, by omega, e, ?_⟩
          rw [List.replicate_succ (n := j + 1)] at he
          simpa using he

theorem DeleteVM_after_stop (P : Platform) (ticksDown ticksGone : Nat) (id : String)
    (h : List Call) (hStop : P.vmStop (h ++ [Call.vmStop id]) = none) :
    DeleteVM P ticksDown ticksGone id h =
      pollImmediate (goneCondition P id) ticksGone
        ((pollImmediate (downCondition P id) ticksDown (h ++ [Call.vmStop id])).2 ++
          [Call.vmRemove id]) := by
  simp only [DeleteVM, hStop, stopToRemove]
  split <;> rfl

/-- C9: in a run of `DeleteVM`, if the stop request fails then `DeleteVM` returns that
error and the only request issued is the stop request (no remove request).  Otherwise the
value returned is exactly the outcome of the last poll, run after the wait-for-down poll
and the remove request: it is no error when one of the reads of that poll fails and the
timeout error of that poll otherwise, and it is the same on every platform that answers
the stop request and the reads alike, whatever it answers to the remove request. -/
theorem DeleteVM_result (P : Platform) (ticksDown ticksGone : Nat) (id : String)
    (h : List Call) :
    (∀ e, P.vmStop (h ++ [Call.vmStop id]) = some e →
      DeleteVM P ticksDown ticksGone id h = (some e, h ++ [Call.vmStop id])) ∧
    (P.vmStop (h ++ [Call.vmStop id]) = none →
      DeleteVM P ticksDown ticksGone id h =
          pollImmediate (goneCondition P id) ticksGone
            (stopToRemove P ticksDown id (h ++ [Call.vmStop id])) ∧
        ((DeleteVM P ticksDown ticksGone id h).1 = none ↔
          ∃ k, k ≤ ticksGone ∧ ∃ e,
            P.vmGet (stopToRemove P ticksDown id (h ++ [Call.vmStop id]) ++
              List.replicate (k + 1) (Call.vmGet id)) = .error e) ∧
        ((DeleteVM P ticksDown ticksGone id h).1 = none ∨
          (DeleteVM P ticksDown ticksGone id h).1 = some .waitTimeout)) ∧
    (∀ Q : Platform, Q.vmStop = P.vmStop → Q.vmGet = P.vmGet →
      DeleteVM Q ticksDown ticksGone id h = DeleteVM P ticksDown ticksGone id h) := by
  refine ⟨fun e he => ?_, fun hStop => ?_, fun Q hS hG => ?_⟩
  · simp [DeleteVM, he]
  · have hrun := DeleteVM_after_stop P ticksDown ticksGone id h hStop
    rw [hrun]
    exact ⟨rfl, pollImmediate_gone_none P id ticksGone _,
      pollImmediate_gone_cases P id ticksGone _⟩
  · have hd : downCondition Q id = downCondition P id := by
      funext t
      simp [downCondition, hG]
    have hg : goneCondition Q id = goneCondition P id := by
      funext t
      simp [goneCondition, hG]
    simp only [DeleteVM, stopToRemove, hS, hd, hg]
    cases P.vmStop (h ++ [Call.vmStop id]) with
    | some e => rfl
    | none =>
      simp only []
      split <;> split <;> rfl

/-- Witness of C9: on `removedPlatform` the stop request is accepted, the wait-for-down
poll times out, the remove request reports an error, and `DeleteVM` returns no error
because the first read of the last poll fails. -/
theorem DeleteVM_result_witness :
    removedPlatform.vmStop [Call.vmStop "vm-1"] = none ∧
      pollImmediate (downCondition removedPlatform "vm-1") 2 [Call.vmStop "vm-1"] =
        (some .waitTimeout,
          [Call.vmStop "vm-1", Call.vmGet "vm-1", Call.vmGet "vm-1", Call.vmGet "vm-1"]) ∧
      removedPlatform.vmRemove
        [Call.vmStop "vm-1", Call.vmGet "vm-1", Call.vmGet "vm-1", Call.vmGet "vm-1",
          Call.vmRemove "vm-1"] = some (.msg "remove reported an error") ∧
      (DeleteVM removedPlatform 2 2 "vm-1" []).1 = none :=
  ⟨by decide, by decide, by decide,
    (((DeleteVM_result removedPlatform 2 2 "vm-1" []).2.1 (by decide)).2.1).mpr
      ⟨0, by decide, .msg "VM not found", by decide⟩⟩

/-- C10 (amended): in a run of `DeleteVM` in which every read of the VM returns an error,
`DeleteVM` returns no error when the stop request is accepted, and returns the error of
the stop request when the stop request fails. -/
theorem DeleteVM_unreadable (P : Platform) (ticksDown ticksGone : Nat) (id : String)
    (h : List Call) (hGet : ∀ t, ∃ e, P.vmGet t = .error e) :
    (P.vmStop (h ++ [Call.vmStop id]) = none →
      (DeleteVM P ticksDown ticksGone id h).1 = none) ∧
    (∀ e, P.vmStop (h ++ [Call.vmStop id]) = some e →
      (DeleteVM P ticksDown ticksGone id h).1 = some e) := by
  constructor
  · intro hStop
    rw [DeleteVM_after_stop P ticksDown ticksGone id h hStop, pollImmediate_gone_none]
    obtain ⟨e, he⟩ := hGet
      ((pollImmediate (downCondition P id) ticksDown (h ++ [Call.vmStop id])).2 ++
        [Call.vmRemove id] ++ List.replicate (0 + 1) (Call.vmGet id))
    exact ⟨0, Nat.zero_le _, e, he⟩
  · intro e he
    simp [DeleteVM, he]

/-- Witness of C10 (amended): on `unreadablePlatform` the stop request is accepted and
every read fails; `DeleteVM` returns no error. -/
theorem DeleteVM_unreadable_witness :
    unreadablePlatform.vmStop [Call.vmStop "vm-1"] = none ∧
      (DeleteVM unreadablePlatform 30 30 "vm-1" []).1 = none :=
  ⟨by decide,
    (DeleteVM_unreadable unreadablePlatform 30 30 "vm-1" []
      (fun _ => ⟨.msg "VM not found", rfl⟩)).1 (by decide)⟩

/-- Counterexample to C10 as stated: on `gonePlatform` the stop request and every read of
the VM return an error, and `DeleteVM` returns the error of the stop request after the
stop request alone. -/
theorem DeleteVM_gone_fails :
    gonePlatform.vmStop = (fun _ => some (.msg "VM not found")) ∧
      gonePlatform.vmGet = (fun _ => .error (.msg "VM not found")) ∧
      DeleteVM gonePlatform 30 30 "vm-1" [] =
        (some (.msg "VM not found"), [Call.vmStop "vm-1"]) :=
  ⟨rfl, rfl, by decide⟩

/-! ## The order of the requests of a creation run -/

/-- Counterexample to C11 as stated: the creation run for `pinnedSpec` on `okPlatform`
succeeds, the spec has a boot disk, an interface, an affinity group and the policy
`resize_and_pin`, and the auto-pinning request is issued before the tag request and
before the affinity-group requests. -/
theorem CreateVMByMachine_pin_before_tag :
    pinnedSpec.OSDisk = some { SizeGB := 31 } ∧
      pinnedSpec.NetworkInterfaces = [{ VNICProfileID := "profile-a" }] ∧
      pinnedSpec.AffinityGroupsNames = ["compute"] ∧
      pinnedSpec.AutoPinningPolicy = "resize_and_pin" ∧
      CreateVMByMachine okPlatform "worker-0" "cluster-tag" "ignition" (some pinnedSpec) [] =
        (.ok { vm := sampleVm }, pinnedTrace) ∧
      pinnedTrace.drop 12 =
        [Call.autoPin "vm-1" false, Call.tagAdd "vm-1" "cluster-tag",
          Call.affinityGroupsList "46991e3f-8752-4ab6-9f2d-c37a98358d52",
          Call.affinityGroupVmAdd "46991e3f-8752-4ab6-9f2d-c37a98358d52" "ag-1" sampleVm] := by
  decide

theorem getHostsInCluster_ok (P : Platform) (clusterID : String) (h h1 : List Call)
    (hosts : List Host) (hok : getHostsInCluster P clusterID h = (.ok hosts, h1)) :
    ∃ name, h1 = h ++ [Call.clusterGet clusterID, Call.hostsList ("cluster=" ++ name)] := by
  simp only [getHostsInCluster] at hok
  split at hok
  · simp at hok
  · next cluster _ =>
    split at hok
    · simp at hok
    · simp only [Prod.mk.injEq] at hok
      exact ⟨cluster.name, by rw [← hok.2]; simp⟩

/-- With auto pinning, a successful assembly has issued the cluster read and the host
search. -/
theorem assembleVm_ok_pinning (P : Platform) (machineName ignition : String)
    (spec : OvirtMachineProviderSpec) (h h1 : List Call) (vm : Vm)
    (hPin : isAutoPinning spec = true)
    (hok : assembleVm P machineName ignition spec h = (.ok vm, h1)) :
    ∃ name, h1 = h ++ [Call.clusterGet spec.ClusterId, Call.hostsList ("cluster=" ++ name)] := by
  simp only [assembleVm, placementPhase, hPin, if_true] at hok
  split at hok
  · simp at hok
  · next b h2 heq =>
    have hh : h2 = h1 := by
      split at hok
      · simp at hok
      · split at hok
        · simp at hok
        · simp only [Prod.mk.injEq] at hok
          exact hok.2
    subst hh
    split at heq
    · simp at heq
    · next hosts h3 hget =>
      obtain ⟨name, hname⟩ := getHostsInCluster_ok P spec.ClusterId h h3 hosts hget
      split at heq
      · simp at heq
      · simp only [Prod.mk.injEq] at heq
        exact ⟨name, by rw [← heq.2, hname]⟩

/-- The requests of `handleDiskExtension`: the listing, followed by disk requests only. -/
theorem handleDiskExtension_calls (P : Platform) (vmService : String) (createdVM : VmInfo)
    (osDisk : Disk) (h : List Call) :
    ∃ t, (handleDiskExtension P vmService createdVM osDisk h).2 =
        h ++ Call.diskAttachmentsList vmService :: t ∧
      ∀ c ∈ t, c.isDiskCall = true := by
  simp only [handleDiskExtension]
  split
  · exact ⟨[], by simp, by simp⟩
  · split
    · exact ⟨[], by simp, by simp⟩
    · next attachment _ =>
      split
      · exact ⟨[Call.diskGet attachment.id], by simp, by simp [Call.isDiskCall]⟩
      · split
        · split
          · exact ⟨[Call.diskGet attachment.id, _], by simp; rfl, by simp [Call.isDiskCall]⟩
          · split
            · exact ⟨[Call.diskGet attachment.id, _, _], by simp; exact ⟨rfl, rfl⟩,
                by simp [Call.isDiskCall]⟩
            · exact ⟨[Call.diskGet attachment.id, _, _], by simp; exact ⟨rfl, rfl⟩,
                by simp [Call.isDiskCall]⟩
        · exact ⟨[Call.diskGet attachment.id], by simp, by simp [Call.isDiskCall]⟩

/-- The requests of a successful `handleNics` with desired interfaces. -/
theorem handleNics_ok_trace (P : Platform) (vmService : String)
    (spec : OvirtMachineProviderSpec) (h h1 : List Call)
    (hne : spec.NetworkInterfaces ≠ [])
    (hok : handleNics P vmService spec h = (none, h1)) :
    ∃ existing, h1 = h ++ [Call.nicsList vmService] ++ removeCalls vmService existing ++
      addCalls vmService 0 spec.NetworkInterfaces := by
  have hlen : ¬ spec.NetworkInterfaces.length = 0 := by
    simpa [List.length_eq_zero] using hne
  simp only [handleNics, hlen, if_false] at hok
  split at hok
  · simp at hok
  · next existing _ =>
    have hr := removeNics_of_success P vmService existing (h ++ [Call.nicsList vmService])
    split at hok
    · simp at hok
    · next h2 heq =>
      rw [heq] at hr
      have hr2 : h2 = h ++ [Call.nicsList vmService] ++ removeCalls vmService existing :=
        hr rfl
      have ha := addNics_of_success P vmService 0 spec.NetworkInterfaces h2
        (by rw [hok])
      rw [hok] at ha
      exact ⟨existing, by rw [show h1 = _ from ha, hr2]⟩

theorem resolveGroups_length (cID : String) (m : List (String × AffinityGroup))
    (names : List String) (acc ags : List AffinityGroup)
    (hok : resolveGroups cID m names acc = .ok ags) :
    ags.length = acc.length + names.length := by
  induction names generalizing acc with
  | nil =>
    simp only [resolveGroups, Except.ok.injEq] at hok
    simp [hok]
  | cons n rest ih =>
    simp only [resolveGroups] at hok
    split at hok
    · simp at hok
    · next g _ =>
      rw [ih _ hok]
      simp
      omega

theorem addToGroups_ok_trace (P : Platform) (vm : VmInfo) (cID : String)
    (ags : List AffinityGroup) (h h1 : List Call)
    (hok : addToGroups P vm cID ags h = (none, h1)) :
    h1 = h ++ groupAddCalls cID vm ags := by
  induction ags generalizing h with
  | nil =>
    simp only [addToGroups, Prod.mk.injEq, true_and] at hok
    simp [groupAddCalls, hok]
  | cons ag rest ih =>
    simp only [addToGroups] at hok
    split at hok
    · split at hok
      · simp at hok
      · rw [ih _ hok]
        simp [groupAddCalls]
    · rw [ih _ hok]
      simp [groupAddCalls]

/-- The requests of a successful `handleAffinityGroups`: the listing, then one
add-membership request per requested name. -/
theorem handleAffinityGroups_ok_trace (P : Platform) (vm : VmInfo) (cID : String)
    (agsName : List String) (h h1 : List Call)
    (hok : handleAffinityGroups P vm cID agsName h = (none, h1)) :
    ∃ ags, ags.length = agsName.length ∧
      h1 = h ++ Call.affinityGroupsList cID :: groupAddCalls cID vm ags := by
  simp only [handleAffinityGroups, getAffinityGroups] at hok
  split at hok
  · simp at hok
  · next ags h2 heq =>
    split at heq
    · simp at heq
    · next groups _ =>
      simp only [Prod.mk.injEq] at heq
      have hlen := resolveGroups_length cID (agNamesMap groups) agsName [] ags heq.1
      have ht := addToGroups_ok_trace P vm cID ags h2 h1 hok
      refine ⟨ags, by simpa using hlen, ?_⟩
      rw [ht, ← heq.2]
      simp

/-- A successful creation run, taken apart: the assembly, the create call, the stability
wait, disk and network reconciliation and the affinity-group step all succeeded. -/
theorem CreateVMByMachine_ok_inv (P : Platform) (machineName ovirtClusterID ignition : String)
    (providerSpec : OvirtMachineProviderSpec) (h hEnd : List Call) (created : Instance)
    (hOk : CreateVMByMachine P machineName ovirtClusterID ignition (some providerSpec) h =
      (.ok created, hEnd)) :
    ∃ vm h1 h4 h5,
      assembleVm P machineName ignition providerSpec h = (.ok vm, h1) ∧
      diskStep P created.vm.id created.vm providerSpec
        (h1 ++ [Call.vmAdd vm, Call.waitForVM created.vm.id VMSTATUS_DOWN]) = (none, h4) ∧
      handleNics P created.vm.id providerSpec h4 = (none, h5) ∧
      handleAffinityGroups P created.vm providerSpec.ClusterId
        providerSpec.AffinityGroupsNames
        (tagStep P created.vm.id ovirtClusterID (autoPinStep P created.vm.id providerSpec h5))
          = (none, hEnd) := by
  simp only [CreateVMByMachine] at hOk
  split at hOk
  · simp at hOk
  · next vm h1 hAsm =>
    split at hOk
    · simp at hOk
    · next response _ =>
      simp only [afterCreate] at hOk
      split at hOk
      · simp at hOk
      · split at hOk
        · simp at hOk
        · next h4 hDisk =>
          split at hOk
          · simp at hOk
          · next h5 hNics =>
            split at hOk
            · simp at hOk
            · next h6 hAff =>
              simp only [Prod.mk.injEq, Except.ok.injEq] at hOk
              obtain ⟨hc, he⟩ := hOk
              subst hc
              subst he
              exact ⟨vm, h1, h4, h5, hAsm, by simpa using hDisk, hNics, hAff⟩

/-- C11 (amended): in a successful creation run with a non-nil `OSDisk`, a non-empty
interface list, at least one affinity group and an auto-pinning policy that is set and is
not `disabled`, the requests after the create call and the stability wait are issued in
this order: disk reconciliation (the listing of the attachments followed by disk requests
only), network reconciliation (the listing, the removes, the adds), the auto-pinning
request, the tag request, affinity-group binding (the listing followed by one
add-membership request per requested name).  The auto-pinning request comes before the
tag request and the affinity-group binding. -/
theorem CreateVMByMachine_order (P : Platform) (machineName ovirtClusterID ignition : String)
    (providerSpec : OvirtMachineProviderSpec) (osDisk : Disk) (h hEnd : List Call)
    (created : Instance)
    (hDisk : providerSpec.OSDisk = some osDisk)
    (hNics : providerSpec.NetworkInterfaces ≠ [])
    (hAgs : providerSpec.AffinityGroupsNames ≠ [])
    (hPin : isAutoPinning providerSpec = true)
    (hOk : CreateVMByMachine P machineName ovirtClusterID ignition (some providerSpec) h =
      (.ok created, hEnd)) :
    ∃ (clusterName : String) (vm : Vm) (disk : List Call) (existing : List NicInfo)
        (ags : List AffinityGroup),
      hEnd =
        h ++ [Call.clusterGet providerSpec.ClusterId,
            Call.hostsList ("cluster=" ++ clusterName),
            Call.vmAdd vm, Call.waitForVM created.vm.id VMSTATUS_DOWN] ++
          Call.diskAttachmentsList created.vm.id :: disk ++
          ([Call.nicsList created.vm.id] ++ removeCalls created.vm.id existing ++
            addCalls created.vm.id 0 providerSpec.NetworkInterfaces) ++
          [Call.autoPin created.vm.id
              (decide (providerSpec.AutoPinningPolicy = AUTOPINNINGPOLICY_ADJUST)),
            Call.tagAdd created.vm.id ovirtClusterID] ++
          Call.affinityGroupsList providerSpec.ClusterId ::
            groupAddCalls providerSpec.ClusterId created.vm ags ∧
      (∀ c ∈ disk, c.isDiskCall = true) ∧
      ags.length = providerSpec.AffinityGroupsNames.length ∧ ags ≠ [] := by
  obtain ⟨vm, h1, h4, h5, hAsm, hD, hN, hA⟩ :=
    CreateVMByMachine_ok_inv P machineName ovirtClusterID ignition providerSpec h hEnd created
      hOk
  obtain ⟨clusterName, hh1⟩ := assembleVm_ok_pinning P machineName ignition providerSpec h h1
    vm hPin hAsm
  simp only [diskStep, hDisk] at hD
  obtain ⟨disk, hdt, hdisk⟩ := handleDiskExtension_calls P created.vm.id created.vm osDisk
    (h1 ++ [Call.vmAdd vm, Call.waitForVM created.vm.id VMSTATUS_DOWN])
  rw [hD] at hdt
  obtain ⟨existing, hh5⟩ := handleNics_ok_trace P created.vm.id providerSpec h4 h5 hNics hN
  rw [tagStep_trace, autoPinStep_trace, if_pos hPin] at hA
  obtain ⟨ags, hlen, hhEnd⟩ := handleAffinityGroups_ok_trace P created.vm
    providerSpec.ClusterId providerSpec.AffinityGroupsNames _ hEnd hA
  refine ⟨clusterName, vm, disk, existing, ags, ?_, hdisk, hlen, ?_⟩
  · rw [hhEnd, hh5]
    simp only [] at hdt
    rw [hdt, hh1]
    simp
  · intro h0
    rw [h0] at hlen
    exact hAgs (List.length_eq_zero.mp hlen.symm)

/-- Witness of C11 (amended): the creation run for `pinnedSpec` on `okPlatform` succeeds
with the trace `pinnedTrace`, which has the shape of the theorem: the auto-pinning request
stands between the last interface request and the tag request. -/
theorem CreateVMByMachine_order_witness :
    ∃ (clusterName : String) (vm : Vm) (disk : List Call) (existing : List NicInfo)
        (ags : List AffinityGroup),
      pinnedTrace =
        [] ++ [Call.clusterGet pinnedSpec.ClusterId,
            Call.hostsList ("cluster=" ++ clusterName),
            Call.vmAdd vm, Call.waitForVM "vm-1" VMSTATUS_DOWN] ++
          Call.diskAttachmentsList "vm-1" :: disk ++
          ([Call.nicsList "vm-1"] ++ removeCalls "vm-1" existing ++
            addCalls "vm-1" 0 pinnedSpec.NetworkInterfaces) ++
          [Call.autoPin "vm-1" (decide (pinnedSpec.AutoPinningPolicy = AUTOPINNINGPOLICY_ADJUST)),
            Call.tagAdd "vm-1" "cluster-tag"] ++
          Call.affinityGroupsList pinnedSpec.ClusterId ::
            groupAddCalls pinnedSpec.ClusterId sampleVm ags ∧
      (∀ c ∈ disk, c.isDiskCall = true) ∧
      ags.length = pinnedSpec.AffinityGroupsNames.length ∧ ags ≠ [] :=
  CreateVMByMachine_order okPlatform "worker-0" "cluster-tag" "ignition" pinnedSpec
    { SizeGB := 31 } [] pinnedTrace { vm := sampleVm } (by decide) (by decide) (by decide)
    (by decide) (by decide)

/-! ## Lookup by name -/

/-- The loop of `GetVMByName` returns the first VM whose name is present and equal to the
requested name. -/
theorem findByName_eq_find (mName : String) (vms : List VmInfo) :
    findByName mName vms =
      (vms.find? (fun vm => decide (vm.name = some mName))).map (fun vm => { vm := vm }) := by
  induction vms with
  | nil => rfl
  | cons vm rest ih =>
    simp only [findByName, List.find?_cons]
    cases hn : vm.name with
    | none => simpa using ih
    | some name =>
      by_cases heq : name = mName
      · simp [heq]
      · simp [heq, ih]

/-- C12: for every name and every successful search response, `GetVMByName` returns, with no
error, the first VM of the response whose name is present and equal to the requested name;
VMs in front of it that carry another name or no name are skipped; when no VM of the
response has that name, it returns an absent instance and no error.  The one request
issued is the search `name=<name>`. -/
theorem GetVMByName_first (P : Platform) (mName : String) (h : List Call) (vms : List VmInfo)
    (hList : P.vmsList (h ++ [Call.vmsList ("name=" ++ mName)]) = .ok vms) :
    GetVMByName P mName h =
        (.ok ((vms.find? (fun vm => decide (vm.name = some mName))).map
          (fun vm => { vm := vm })), h ++ [Call.vmsList ("name=" ++ mName)]) ∧
      (∀ front vm back, vms = front ++ vm :: back → vm.name = some mName →
        (∀ u ∈ front, u.name ≠ some mName) →
        GetVMByName P mName h =
          (.ok (some { vm := vm }), h ++ [Call.vmsList ("name=" ++ mName)])) ∧
      ((∀ u ∈ vms, u.name ≠ some mName) →
        GetVMByName P mName h = (.ok none, h ++ [Call.vmsList ("name=" ++ mName)])) := by
  have hrun : GetVMByName P mName h =
      (.ok ((vms.find? (fun vm => decide (vm.name = some mName))).map
        (fun vm => { vm := vm })), h ++ [Call.vmsList ("name=" ++ mName)]) := by
    simp only [GetVMByName, hList, findByName_eq_find]
  refine ⟨hrun, ?_, ?_⟩
  · intro front vm back hvms hname hfront
    rw [hrun, hvms, List.find?_append]
    have hnone : front.find? (fun vm => decide (vm.name = some mName)) = none := by
      rw [List.find?_eq_none]
      intro u hu
      simpa using hfront u hu
    rw [hnone]
    simp [hname]
  · intro hall
    rw [hrun]
    have hnone : vms.find? (fun vm => decide (vm.name = some mName)) = none := by
      rw [List.find?_eq_none]
      intro u hu
      simpa using hall u hu
    rw [hnone]
    rfl

/-- Witness of C12: on `searchPlatform` the search for `worker-0` skips the VM without a
name and the VM named `worker-01` and returns `vm-c`, the first of the two VMs named
`worker-0`. -/
theorem GetVMByName_first_witness :
    (GetVMByName searchPlatform "worker-0" []).1 =
      .ok (some { vm := { id := "vm-c", name := some "worker-0", status := "up" } }) :=
  congrArg Prod.fst
    ((GetVMByName_first searchPlatform "worker-0" [] searchResponse rfl).2.1
      [{ id := "vm-a", name := none, status := "up" },
        { id := "vm-b", name := some "worker-01", status := "up" }]
      { id := "vm-c", name := some "worker-0", status := "up" }
      [{ id := "vm-d", name := some "worker-0", status := "down" }]
      rfl rfl (by decide))

end Ovirt
